import Mathlib

/-!
Shallow embedding of the Huntercoin/SMC game-state transition engine
(`src/game/state.cpp`) for checking the specification's claims.

Conventions:
* `Int` (C++ `int64_t`) is embedded as `Int`; overflow is not modelled
  (the engine's own asserts keep all amounts far from 2^63).
* `std::map` / `std::multimap` containers are embedded as association lists
  kept in key order by the operations that build them; the claims proved here
  depend only on contents and relative order, both of which the list preserves.
* C++ `assert`s become hypotheses of the theorems; on the (dead) failure paths
  the Lean functions return their input unchanged.
* Code of the repository that is outside `src/` (headers `game/state.h`,
  `game/map.h`, `game/move.cpp`, chain parameters) is modelled from the spec;
  each such definition carries a doc comment starting `Modelled from the spec:`.
-/

/-- `COIN = 10^8` base units, as in the Bitcoin-derived sources. -/
def COIN : Int := 100000000

/-- Player identifier (`PlayerID` is a `std::string` in the source). -/
abbrev PlayerID := String

/-- Map coordinate (`struct Coord { int x; int y; }`). -/
structure Coord where
  x : Int
  y : Int
deriving DecidableEq, Repr

/-- `CharacterID`: a player name together with a character index
(index 0 is the general). -/
structure CharacterID where
  player : PlayerID
  index : Nat
deriving DecidableEq, Repr

/-- The named forks used by the engine (`FORK_*` constants).  The set of
names is taken from `state.cpp`'s uses of `ForkInEffect`. -/
inductive Fork where
  | POISON
  | CARRYINGCAP
  | LESSHEARTS
  | LIFESTEAL
  | TIMESAVE
deriving DecidableEq, Repr

/-- Modelled from the spec: the fork gate (§4.2) lives in the chain-parameter
classes, which are outside `src/`.  Each named fork has an activation height;
`ForkInEffect` and `IsForkHeight` are derived from it. -/
structure ForkRules where
  activation : Fork → Int

/-- Modelled from the spec: `ForkInEffect(name, height)` — the fork has
activated at `height`. -/
def ForkRules.ForkInEffect (r : ForkRules) (f : Fork) (h : Int) : Bool :=
  r.activation f ≤ h

/-- Modelled from the spec: `IsForkHeight(name, height)` — `height` is exactly
the activation height of the fork. -/
def ForkRules.IsForkHeight (r : ForkRules) (f : Fork) (h : Int) : Bool :=
  r.activation f == h

/-- Modelled from the spec (§4.1): the deterministic PRNG seeded from a block
hash.  The byte-level stream is abstracted as a function `Nat → Nat` (the
values of successive calls); the sampling order contract is preserved by
threading the generator through every call site in source order. -/
structure RandomGenerator where
  stream : Nat → Nat
  idx : Nat

/-- `int GetIntRnd(int n)` — uniform on `[0, n)`; consumes one stream value. -/
def RandomGenerator.GetIntRnd (rng : RandomGenerator) (n : Nat) : Nat × RandomGenerator :=
  (rng.stream rng.idx % n, ⟨rng.stream, rng.idx + 1⟩)

/-- `int GetIntRnd(int lo, int hi)` — uniform on `[lo, hi]` inclusive;
consumes one stream value. -/
def RandomGenerator.GetIntRndRange (rng : RandomGenerator) (lo hi : Int) : Int × RandomGenerator :=
  (lo + ((rng.stream rng.idx % (hi - lo + 1).toNat : Nat) : Int), ⟨rng.stream, rng.idx + 1⟩)

/-- Look up a key in an association list (embedding of `std::map::find`). -/
def lookupA {β : Type} (k : String) (l : List (String × β)) : Option β :=
  match l with
  | [] => none
  | (k', v) :: rest => if k' = k then some v else lookupA k rest

/-- Look up a `Nat` key in an association list. -/
def lookupN {β : Type} (k : Nat) (l : List (Nat × β)) : Option β :=
  match l with
  | [] => none
  | (k', v) :: rest => if k' = k then some v else lookupN k rest

/-- Look up a `Coord` key in an association list. -/
def lookupC {β : Type} (k : Coord) (l : List (Coord × β)) : Option β :=
  match l with
  | [] => none
  | (k', v) :: rest => if k' = k then some v else lookupC k rest

/-- Replace the value stored under a key (embedding of writing through a
`std::map` iterator); keys not present are left alone. -/
def setA {β : Type} (k : String) (v : β) (l : List (String × β)) : List (String × β) :=
  l.map (fun p => if p.1 = k then (k, v) else p)

/-- Replace the value stored under a `Coord` key. -/
def setC {β : Type} (k : Coord) (v : β) (l : List (Coord × β)) : List (Coord × β) :=
  l.map (fun p => if p.1 = k then (k, v) else p)

/-- Erase a key (embedding of `std::map::erase`). -/
def eraseA {β : Type} (k : String) (l : List (String × β)) : List (String × β) :=
  l.filter (fun p => p.1 ≠ k)

/-- Erase a `Nat` key. -/
def eraseN {β : Type} (k : Nat) (l : List (Nat × β)) : List (Nat × β) :=
  l.filter (fun p => p.1 ≠ k)

/-- Erase a `Coord` key. -/
def eraseC {β : Type} (k : Coord) (l : List (Coord × β)) : List (Coord × β) :=
  l.filter (fun p => p.1 ≠ k)

/-- `LootInfo`: a coin amount lying on a tile or carried by a character.
The informational `firstBlock`/`lastBlock` range (spec §3: "purely
informational block range") is omitted; no claim mentions it. -/
structure LootInfo where
  nAmount : Int
deriving DecidableEq, Repr

/-- `CharacterState`, restricted to the fields the verified claims read:
position, carried loot and the `AI_STATE2_STASIS` bit of `ai_state2`
(a character in stasis does not bank). -/
structure CharacterState where
  coord : Coord
  loot : LootInfo
  inStasis : Bool
deriving DecidableEq, Repr

/-- `PlayerState`, restricted to the fields the verified claims read.
`value` is the locked-coin balance counted by `GetCoinsOnMap` and drained by
`DrawLife`; `lockedCoins` is the bookkeeping field updated by the
locked-coin-delta pass of `PerformStep`. -/
structure PlayerState where
  color : Nat
  value : Int
  lockedCoins : Int
  remainingLife : Int
  address : String
  characters : List (Nat × CharacterState)
deriving DecidableEq, Repr

/-- `GameState`, restricted to the fields the verified claims read.
`hashIsNull` embeds `hashBlock.IsNull()` (the hash value itself only seeds
the RNG, which is passed separately). -/
structure GameState where
  rules : ForkRules
  nHeight : Int
  nDisasterHeight : Int
  hashIsNull : Bool
  players : List (PlayerID × PlayerState)
  loot : List (Coord × LootInfo)
  hearts : List Coord
  banks : List (Coord × Nat)
  gameFund : Int
  dao_MinVersion : Int
  dao_IntervalMonsterApocalypse : Int

/-- `state.ForkInEffect (f)` — forwards to the chain rules at the state's
current height. -/
def GameState.ForkInEffect (s : GameState) (f : Fork) : Bool :=
  s.rules.ForkInEffect f s.nHeight

/-- `KilledByInfo::Reason` (`KILLED_DESTRUCT`, `KILLED_SPAWN`,
`KILLED_POISON`). -/
inductive KillReason where
  | DESTRUCT
  | SPAWN
  | POISON
deriving DecidableEq, Repr

/-- `KilledByInfo`: cause of a kill plus the optional attacking character. -/
structure KilledByInfo where
  reason : KillReason
  attacker : Option CharacterID := none
deriving DecidableEq, Repr

/-- `KilledByInfo::HasDeathTax`: every cause except `KILLED_SPAWN` pays the
death tax (state.cpp lines 255-259). -/
def KilledByInfo.HasDeathTax (kb : KilledByInfo) : Bool :=
  kb.reason ≠ KillReason.SPAWN

/-- `KilledByInfo::DropCoins` (state.cpp lines 261-276): before
`FORK_LESSHEARTS` coins are always dropped; after it, poisoned victims
(`remainingLife ≥ 0`) drop nothing. -/
def KilledByInfo.DropCoins (_kb : KilledByInfo) (state : GameState)
    (victim : PlayerState) : Bool :=
  if ¬ state.ForkInEffect Fork.LESSHEARTS then true
  else if victim.remainingLife ≥ 0 then false
  else true

/-- `KilledByInfo::CanRefund` (state.cpp lines 278-303). -/
def KilledByInfo.CanRefund (kb : KilledByInfo) (state : GameState)
    (victim : PlayerState) : Bool :=
  if ¬ state.ForkInEffect Fork.LESSHEARTS then false
  else
    match kb.reason with
    | KillReason.SPAWN =>
        if ¬ state.ForkInEffect Fork.LIFESTEAL ∧ victim.remainingLife ≥ 0 then false
        else true
    | KillReason.POISON => state.ForkInEffect Fork.LIFESTEAL
    | KillReason.DESTRUCT => false

/-- `CollectedBounty`: an outgoing payment recorded in the step result
(player, character index, amount and payout address). -/
structure CollectedBounty where
  player : PlayerID
  chIndex : Nat
  lootAmount : Int
  address : String
deriving DecidableEq, Repr

/-- `StepResult`: kills, bounties and the accumulated tax of one step. -/
structure StepResult where
  killed : List (PlayerID × KilledByInfo) := []
  bounties : List CollectedBounty := []
  nTaxAmount : Int := 0
deriving DecidableEq, Repr

/-- `StepResult::KillPlayer` — record a kill together with its cause. -/
def StepResult.KillPlayer (res : StepResult) (pid : PlayerID)
    (info : KilledByInfo) : StepResult :=
  { res with killed := res.killed ++ [(pid, info)] }

/-- The constant ladder of `GetNameCoinAmount` (state.cpp lines 234-250).
The "SMC basic conversion" block returns before the original fork ladder,
which is therefore unreachable in this source and not embedded.  The unused
`rules` argument keeps the source signature (`Consensus::Params`). -/
def GetNameCoinAmount (_rules : ForkRules) (nHeight : Int) : Int :=
  if nHeight > 30000 then 20 * COIN
  else if nHeight > 20000 then 30 * COIN
  else if nHeight > 10000 then 50 * COIN
  else 100 * COIN

/-- `CharacterState::CollectLoot` (state.cpp lines 3310-3340).
`LootInfo::Collect` itself is declared in `game/state.h`, which is outside
`src/`; modelled from the spec (§4.3: collecting adds the new amount and
must preserve `totalBefore = totalAfter + remainder`) it adds
`newLoot.nAmount` to the carried amount.  Returns the updated character and
the uncollectable remainder. -/
def CharacterState.CollectLoot (ch : CharacterState) (newLoot : LootInfo)
    (_nHeight : Int) (carryCap : Int) : CharacterState × Int :=
  let freeCap0 := carryCap - ch.loot.nAmount
  let freeCap := if freeCap0 < 0 then 0 else freeCap0
  let remaining := if carryCap = -1 ∨ newLoot.nAmount ≤ freeCap then 0
                   else newLoot.nAmount - freeCap
  let collected := if remaining > 0 then newLoot.nAmount - remaining
                   else newLoot.nAmount
  ({ ch with loot := ⟨ch.loot.nAmount + collected⟩ }, remaining)

/-- The merchants whose wares carry a base price in `Rpg_getMerchantOffer`
(state.cpp lines 433-454).  `OTHER` stands for every other `MERCH_*` index,
for which the function leaves the price at 0. -/
inductive Merch where
  | ARMOR_BUFFCOAT
  | ARMOR_LINEN
  | ARMOR_SCALE
  | ARMOR_SPLINT
  | ARMOR_PLATE
  | STINKING_CLOUD
  | RING_WORD_RECALL
  | STAFF_FIREBALL
  | STAFF_REAPER
  | AMULET_LIFE_SAVING
  | RING_IMMORTALITY
  | WEAPON_ESTOC
  | WEAPON_SWORD
  | WEAPON_XBOW
  | WEAPON_XBOW3
  | STAFF_LIGHTNING
  | OTHER
deriving DecidableEq, Repr

/-- Modelled from the spec: `PRICE_RING_IMMORTALITY` is a constant from a
header outside `src/`; its concrete value does not matter for any claim,
only that it is the base price used for `MERCH_RING_IMMORTALITY`. -/
def PRICE_RING_IMMORTALITY : Int := 500

/-- The base-price chain of `Rpg_getMerchantOffer` (state.cpp lines
437-454); merchants not listed keep price 0. -/
def merchBasePrice (m : Merch) : Int :=
  match m with
  | Merch.ARMOR_BUFFCOAT => 50
  | Merch.ARMOR_LINEN => 35
  | Merch.ARMOR_SCALE => 80
  | Merch.ARMOR_SPLINT => 80
  | Merch.ARMOR_PLATE => 90
  | Merch.STINKING_CLOUD => 20
  | Merch.RING_WORD_RECALL => 30
  | Merch.STAFF_FIREBALL => 20
  | Merch.STAFF_REAPER => 20
  | Merch.AMULET_LIFE_SAVING => 20
  | Merch.RING_IMMORTALITY => PRICE_RING_IMMORTALITY
  | Merch.WEAPON_ESTOC => 50
  | Merch.WEAPON_SWORD => 15
  | Merch.WEAPON_XBOW => 30
  | Merch.WEAPON_XBOW3 => 60
  | Merch.STAFF_LIGHTNING => 90
  | Merch.OTHER => 0

/-- `Rpg_getMerchantOffer(m, h)` (state.cpp lines 433-497).  The global
`Merchant_last_sale[m]` is passed explicitly.  The discount ladder is only
applied when `h > 0` and the merchant has a recorded sale
(`Merchant_last_sale[m] > 0`). -/
def Rpg_getMerchantOffer (m : Merch) (h : Int) (lastSale : Int) : Int :=
  let base := merchBasePrice m
  if h ≤ 0 ∨ lastSale ≤ 0 then base
  else if h - lastSale > 10000 then base / 10
  else if h - lastSale > 5000 then (base * 3) / 10
  else if h - lastSale > 2000 then (base * 5) / 10
  else if h - lastSale > 1000 then (base * 6) / 10
  else if h - lastSale > 500 then (base * 7) / 10
  else if h - lastSale > 200 then (base * 8) / 10
  else if h - lastSale > 100 then (base * 9) / 10
  else base

/-- The spec's description of the purchase price (§4.7): the base price
scaled by the discount ladder driven by `h - last_sale`, with no further
condition.  Stated separately so that it can be compared with the source
function `Rpg_getMerchantOffer`. -/
def specLadderPrice (base : Int) (h : Int) (lastSale : Int) : Int :=
  if h - lastSale > 10000 then base / 10
  else if h - lastSale > 5000 then (base * 3) / 10
  else if h - lastSale > 2000 then (base * 5) / 10
  else if h - lastSale > 1000 then (base * 6) / 10
  else if h - lastSale > 500 then (base * 7) / 10
  else if h - lastSale > 200 then (base * 8) / 10
  else if h - lastSale > 100 then (base * 9) / 10
  else base

/-- `AI_BUY_FROM_MERCHANT(S, I, M)` (state.cpp lines 498-506), for a buying
character with slot value `slot` and carried loot `loot`: if the slot does
not already hold the item, the merchant exists, and the loot covers the
offer (in coin units), pay the price into the merchant's received-coins
account and set the slot; otherwise do nothing.  `AI_dbg_allow_payments`
is `true` in this source (state.cpp line 358). -/
def AI_BUY_FROM_MERCHANT (slot item : Nat) (m : Merch) (merchExists : Bool)
    (h : Int) (lastSale : Int) (loot : Int) (satsReceived : Int) :
    Nat × Int × Int :=
  let offer := Rpg_getMerchantOffer m h lastSale
  if slot ≠ item ∧ merchExists ∧ loot ≥ offer * COIN then
    (item, loot - offer * COIN, satsReceived + offer * COIN)
  else
    (slot, loot, satsReceived)

/-- Modelled from the spec: the map module (`game/map.h` / `map.cpp`) is
outside `src/`.  It contributes the fixed walkable/spawn masks, the
spawn-push function, and the harvest-area tables (each harvest area is its
tile table paired with its `HarvestPortions` entry).  `crownBonusPortion`
and `totalHarvest` are `CROWN_BONUS` and `TOTAL_HARVEST`. -/
structure MapData where
  pushCoordOutOfSpawnArea : Coord → Coord
  isInsideMap : Coord → Bool
  spawnMapPlayer : Coord → Bool
  walkableTiles : List Coord
  walkableTilesTsBanks : List Coord
  harvestAreas : List (List Coord × Nat)
  crownBonusPortion : Nat
  totalHarvest : Nat

/-- `GameState::GetCoinsOnMap` (state.cpp lines 3814-3829): loot lying on
tiles, plus every player's locked value, plus every character's carried
loot. -/
def GameState.GetCoinsOnMap (s : GameState) : Int :=
  (s.loot.map (fun l => l.2.nAmount)).sum
    + (s.players.map (fun p =>
        p.2.value + (p.2.characters.map (fun pc => pc.2.loot.nAmount)).sum)).sum

/-- `GameState::AddLoot` (state.cpp lines 3584-3598): adding 0 is a no-op;
adding to an existing tile accumulates (erasing the entry if the sum is 0);
otherwise a new entry is appended. -/
def GameState.AddLoot (s : GameState) (coord : Coord) (nAmount : Int) :
    GameState :=
  if nAmount = 0 then s
  else
    match lookupC coord s.loot with
    | some li =>
        if li.nAmount + nAmount = 0 then { s with loot := eraseC coord s.loot }
        else { s with loot := setC coord ⟨li.nAmount + nAmount⟩ s.loot }
    | none => { s with loot := s.loot ++ [(coord, ⟨nAmount⟩)] }

/-- `GameState::HandleKilledLoot` (state.cpp lines 3938-4001).  The global
`Cache_min_version` is passed explicitly.  Refund pushes a bounty of the
player's locked value; the dropped amount adds the locked value for a
non-refunded general; the 4% death tax (`nAmount / 25`) applies when the
cause pays death tax and the cached minimum version is below 2020700;
poisoned victims' coins go to the game fund, all others drop on the map
(pushed out of the original spawn area before the life-steal fork). -/
def GameState.HandleKilledLoot (s : GameState) (env : MapData)
    (cacheMinVersion : Int) (pId : PlayerID) (chInd : Nat)
    (info : KilledByInfo) (step : StepResult) : GameState × StepResult :=
  match lookupA pId s.players with
  | none => (s, step)
  | some pc =>
    match lookupN chInd pc.characters with
    | none => (s, step)
    | some ch =>
      let refunded := chInd = 0 ∧ info.CanRefund s pc
      let step1 := if refunded then
          { step with bounties := step.bounties ++ [⟨pId, chInd, pc.value, pc.address⟩] }
        else step
      let nAmount0 := ch.loot.nAmount
        + (if chInd = 0 ∧ ¬ refunded then pc.value else 0)
      let taxed :=
        if info.HasDeathTax then
          let nTax := nAmount0 / 25
          if cacheMinVersion < 2020700 then
            ({ step1 with nTaxAmount := step1.nTaxAmount + nTax }, nAmount0 - nTax)
          else (step1, nAmount0)
        else (step1, nAmount0)
      let step2 := taxed.1
      let nAmount := taxed.2
      if ¬ info.DropCoins s pc then
        ({ s with gameFund := s.gameFund + nAmount }, step2)
      else
        let lootPos := if ¬ s.ForkInEffect Fork.LIFESTEAL then
            env.pushCoordOutOfSpawnArea ch.coord
          else ch.coord
        (s.AddLoot lootPos nAmount, step2)

/-- `POISON_MIN_LIFE` (state.cpp line 91). -/
def POISON_MIN_LIFE : Int := 1

/-- `POISON_MAX_LIFE` (state.cpp line 92). -/
def POISON_MAX_LIFE : Int := 50

/-- `DYNBANKS_NUM_BANKS` (state.cpp line 95). -/
def DYNBANKS_NUM_BANKS : Nat := 75

/-- `DYNBANKS_MIN_LIFE` (state.cpp line 96). -/
def DYNBANKS_MIN_LIFE : Int := 25

/-- `DYNBANKS_MAX_LIFE` (state.cpp line 97). -/
def DYNBANKS_MAX_LIFE : Int := 100

/-- `GameState::ApplyDisaster` (state.cpp lines 5368-5389): every player
(all asserted non-poisoned) gets `remainingLife = GetIntRnd(POISON_MIN_LIFE,
POISON_MAX_LIFE)`; hearts are cleared under `FORK_LESSHEARTS`; the disaster
height is reset to the current height.  The per-player loop body is the
named step function. -/
def applyDisasterStep
    (acc : List (PlayerID × PlayerState) × RandomGenerator)
    (pp : PlayerID × PlayerState) :
    List (PlayerID × PlayerState) × RandomGenerator :=
  let r := acc.2.GetIntRndRange POISON_MIN_LIFE POISON_MAX_LIFE
  (acc.1 ++ [(pp.1, { pp.2 with remainingLife := r.1 })], r.2)

/-- `GameState::ApplyDisaster` proper: fold the step over the players, then
clear hearts (under `FORK_LESSHEARTS`) and reset the disaster height. -/
def GameState.ApplyDisaster (s : GameState) (rng : RandomGenerator) :
    GameState × RandomGenerator :=
  let folded := s.players.foldl applyDisasterStep ([], rng)
  ({ s with players := folded.1,
            hearts := if s.ForkInEffect Fork.LESSHEARTS then [] else s.hearts,
            nDisasterHeight := s.nHeight }, folded.2)

/-- `GameState::DecrementLife` (state.cpp lines 5391-5408): every poisoned
player (`remainingLife ≠ -1`, asserted positive) decrements; on reaching 0
the player is killed with cause `KILLED_POISON`.  The per-player loop body
is the named step function. -/
def decrementLifeStep
    (acc : List (PlayerID × PlayerState) × StepResult)
    (pp : PlayerID × PlayerState) :
    List (PlayerID × PlayerState) × StepResult :=
  if pp.2.remainingLife = -1 then (acc.1 ++ [pp], acc.2)
  else
    let life := pp.2.remainingLife - 1
    let step1 := if life = 0 then
        acc.2.KillPlayer pp.1 ⟨KillReason.POISON, none⟩
      else acc.2
    (acc.1 ++ [(pp.1, { pp.2 with remainingLife := life })], step1)

/-- `GameState::DecrementLife` proper: fold the step over the players. -/
def GameState.DecrementLife (s : GameState) (step : StepResult) :
    GameState × StepResult :=
  let folded := s.players.foldl decrementLifeStep ([], step)
  ({ s with players := folded.1 }, folded.2)

/-- `AttackableCharacter`: one entry of the tile multimap built by
`CharactersOnTiles` (state.cpp lines 612-634). -/
structure AttackableCharacter where
  chid : CharacterID
  color : Nat
  attackers : List CharacterID
  drawnLife : Int
deriving DecidableEq, Repr

/-- `AttackableCharacter::AttackBy` (state.cpp lines 614-624): same-colour
attacks are no-ops, otherwise the attacker is recorded (the source asserts
it was not recorded before). -/
def AttackableCharacter.AttackBy (a : AttackableCharacter)
    (attackChid : CharacterID) (pl : PlayerState) : AttackableCharacter :=
  if a.color = pl.color then a
  else { a with attackers := a.attackers ++ [attackChid] }

/-- `AttackableCharacter::AttackSelf` (state.cpp lines 626-634): recorded
only before `FORK_LIFESTEAL`. -/
def AttackableCharacter.AttackSelf (a : AttackableCharacter)
    (state : GameState) : AttackableCharacter :=
  if ¬ state.ForkInEffect Fork.LIFESTEAL then
    { a with attackers := a.attackers ++ [a.chid] }
  else a

/-- The tile multimap of attackable characters, plus the lazily-built flag
(state.cpp `CharactersOnTiles`). -/
structure CharactersOnTiles where
  tiles : List (Coord × AttackableCharacter)
  built : Bool

/-- One destruct entry of `CharactersOnTiles::ApplyAttacks` (state.cpp lines
677-725): if the named character exists, its id is recorded in the
`Huntermsg_destruct` cache (bounded by `HUNTERMSG_CACHE_MAX - 1`).  In this
source the entire victim-marking block — spectator check, `EnsureIsBuilt`,
the destruct-radius loop calling `AttackSelf` / `AttackBy` — is commented
out ("SMC basic conversion -- part 31"), so the tile multimap is never
touched and never built here. -/
def applyAttacksOneMove (state : GameState) (cacheMax : Nat)
    (player : PlayerID) (destruct : List Nat)
    (acc : Nat × List CharacterID) : Nat × List CharacterID :=
  match lookupA player state.players with
  | none => acc
  | some pl =>
      destruct.foldl (fun (acc2 : Nat × List CharacterID) i =>
        match lookupN i pl.characters with
        | none => acc2
        | some _ =>
            if acc2.1 < cacheMax - 1 then
              (acc2.1 + 1, acc2.2 ++ [⟨player, i⟩])
            else acc2) acc

/-- A validated move, restricted to the fields the verified claims read.
Modelled from the spec where marked: `isValidFlag` stands for
`Move::IsValid(state)` (implemented in `game/move.cpp`, outside `src/`;
§4.5 step 1: any invalid move makes the step fail), and `newLocked` is the
move's locked-coin amount. -/
structure Move where
  player : PlayerID
  isSpawn : Bool
  isValidFlag : Bool
  newLocked : Int
  destruct : List Nat
deriving DecidableEq, Repr

/-- `CharactersOnTiles::ApplyAttacks` (state.cpp lines 665-727): for each
move with a non-empty destruct list, record the existing named characters in
the hunter-message destruct cache.  Returns the (unchanged) tile index, the
new cache counter and the cache contents. -/
def CharactersOnTiles.ApplyAttacks (cot : CharactersOnTiles)
    (state : GameState) (moves : List Move) (cacheMax : Nat)
    (msgIdx : Nat) (msgs : List CharacterID) :
    CharactersOnTiles × Nat × List CharacterID :=
  let folded := moves.foldl (fun (acc : Nat × List CharacterID) m =>
      if m.destruct = [] then acc
      else applyAttacksOneMove state cacheMax m.player m.destruct acc)
    (msgIdx, msgs)
  (cot, folded.1, folded.2)

/-- `CharactersOnTiles::DefendMutualAttacks` (state.cpp lines 804-842):
post-`LIFESTEAL`, remove every attacker that is itself attacked by the
victim (mutual attacks cancel). -/
def CharactersOnTiles.DefendMutualAttacks (cot : CharactersOnTiles)
    (_state : GameState) : CharactersOnTiles :=
  if ¬ cot.built then cot
  else
    let attacks := cot.tiles.foldl
      (fun (acc : List (CharacterID × CharacterID)) tile =>
        acc ++ tile.2.attackers.map (fun a => (a, tile.2.chid))) []
    { cot with tiles := cot.tiles.map (fun tile =>
        (tile.1, { tile.2 with attackers :=
          tile.2.attackers.filter (fun mi => ¬ (tile.2.chid, mi) ∈ attacks) })) }

/-- The kill branch of `CharactersOnTiles::DrawLife` (state.cpp lines
786-800): a killed general is reported once per attacker; if the character
still exists, its loot is handled and the character erased. -/
def drawLifeKill (env : MapData) (cacheMinVersion : Int)
    (a : AttackableCharacter) (state : GameState) (result : StepResult) :
    GameState × StepResult :=
  let result1 :=
    if a.chid.index = 0 then
      a.attackers.foldl (fun r at_ =>
        r.KillPlayer a.chid.player ⟨KillReason.DESTRUCT, some at_⟩) result
    else result
  match lookupA a.chid.player state.players with
  | none => (state, result1)
  | some victim =>
      match lookupN a.chid.index victim.characters with
      | none => (state, result1)
      | some _ =>
          let info : KilledByInfo :=
            ⟨KillReason.DESTRUCT, a.attackers.head?⟩
          let handled := state.HandleKilledLoot env cacheMinVersion
            a.chid.player a.chid.index info result1
          let state2 := handled.1
          let result2 := handled.2
          match lookupA a.chid.player state2.players with
          | none => (state2, result2)
          | some victim2 =>
              let victim3 :=
                { victim2 with characters := eraseN a.chid.index victim2.characters }
              ({ state2 with players := setA a.chid.player victim3 state2.players },
               result2)

/-- The per-tile body of `CharactersOnTiles::DrawLife` (state.cpp lines
739-801).  Post-`LIFESTEAL` the victim's locked value is drained by
`damage` per attacker (capped at the value), the sub-damage remainder is
also drawn when less than `damage` is left, and a victim with remaining
value survives untouched; a drained (or pre-fork attacked) victim is
killed. -/
def drawLifeTile (env : MapData) (cacheMinVersion : Int) (lifeSteal : Bool)
    (damage : Int) (tile : Coord × AttackableCharacter)
    (acc : List (Coord × AttackableCharacter) × GameState × StepResult) :
    List (Coord × AttackableCharacter) × GameState × StepResult :=
  let a := tile.2
  let state := acc.2.1
  let result := acc.2.2
  if a.attackers = [] then (acc.1 ++ [tile], state, result)
  else
    match lookupA a.chid.player state.players with
    | none => (acc.1 ++ [tile], state, result)
    | some victim =>
        if lifeSteal then
          let fullDamage0 := damage * a.attackers.length
          let fullDamage := if fullDamage0 > victim.value then victim.value
                            else fullDamage0
          let value1 := victim.value - fullDamage
          let drawn1 := a.drawnLife + fullDamage
          let final := if value1 < damage then ((0 : Int), drawn1 + value1)
                       else (value1, drawn1)
          let a1 := { a with drawnLife := final.2 }
          let victim1 := { victim with value := final.1 }
          let state1 :=
            { state with players := setA a.chid.player victim1 state.players }
          if final.1 ≠ 0 then (acc.1 ++ [(tile.1, a1)], state1, result)
          else
            let killed := drawLifeKill env cacheMinVersion a1 state1 result
            (acc.1 ++ [(tile.1, a1)], killed.1, killed.2)
        else
          let killed := drawLifeKill env cacheMinVersion a state result
          (acc.1 ++ [tile], killed.1, killed.2)

/-- `CharactersOnTiles::DrawLife` (state.cpp lines 729-802): a no-op unless
the index was built; otherwise processes every tile in order. -/
def CharactersOnTiles.DrawLife (cot : CharactersOnTiles) (env : MapData)
    (cacheMinVersion : Int) (state : GameState) (result : StepResult) :
    CharactersOnTiles × GameState × StepResult :=
  if ¬ cot.built then (cot, state, result)
  else
    let lifeSteal := state.ForkInEffect Fork.LIFESTEAL
    let damage := GetNameCoinAmount state.rules state.nHeight
    let folded := cot.tiles.foldl
      (fun acc tile => drawLifeTile env cacheMinVersion lifeSteal damage tile acc)
      ([], state, result)
    ({ cot with tiles := folded.1 }, folded.2.1, folded.2.2)

/-- `CharactersOnTiles::DistributeDrawnLife` (state.cpp lines 844-914):
for each attacked character, repeatedly pick one still-alive attacker at
random (removing the chosen entry by shift, keeping the vector ordered) and
transfer one `damage` unit; the residual goes to the game fund. -/
def distributeDrawnLoop (damage : Int)
    (alive : List CharacterID) (toSpend : Int) (state : GameState)
    (rng : RandomGenerator) : Nat → (Int × GameState × RandomGenerator)
  | 0 => (toSpend, state, rng)
  | Nat.succ fuel =>
      if alive = [] ∨ toSpend < damage then (toSpend, state, rng)
      else
        let picked := rng.GetIntRnd alive.length
        let ind := picked.1
        let rng1 := picked.2
        match alive.get? ind with
        | none => (toSpend, state, rng1)
        | some chid =>
            match lookupA chid.player state.players with
            | none => (toSpend, state, rng1)
            | some pl =>
                let pl1 := { pl with value := pl.value + damage }
                let state1 :=
                  { state with players := setA chid.player pl1 state.players }
                distributeDrawnLoop damage (alive.eraseIdx ind)
                  (toSpend - damage) state1 rng1 fuel

/-- `CharactersOnTiles::DistributeDrawnLife` proper: the alive-attacker list
is assembled from the still-present players, then the drawn pool of every
tile is distributed; the loop is bounded by the number of alive attackers. -/
def CharactersOnTiles.DistributeDrawnLife (cot : CharactersOnTiles)
    (rng : RandomGenerator) (state : GameState) :
    GameState × RandomGenerator :=
  if ¬ cot.built then (state, rng)
  else
    let damage := GetNameCoinAmount state.rules state.nHeight
    cot.tiles.foldl (fun (acc : GameState × RandomGenerator) tile =>
      let a := tile.2
      if a.attackers = [] ∨ a.drawnLife = 0 then acc
      else
        let alive := a.attackers.filter
          (fun mi => (lookupA mi.player acc.1.players).isSome)
        let looped := distributeDrawnLoop damage alive a.drawnLife acc.1 acc.2
          alive.length
        ({ looped.2.1 with gameFund := looped.2.1.gameFund + looped.1 },
         looped.2.2)) (state, rng)

/-- The surviving banks computed at the top of `GameState::UpdateBanks`
(state.cpp lines 5447-5475): empty at the `LIFESTEAL` fork height, reset at
the `TIMESAVE` fork height, and otherwise each bank's life decremented with
the life-1 banks dropped. -/
def survivingBanks (s : GameState) : List (Coord × Nat) :=
  if s.rules.IsForkHeight Fork.LIFESTEAL s.nHeight then []
  else s.banks.foldr (fun b acc =>
    if s.rules.IsForkHeight Fork.TIMESAVE s.nHeight then acc
    else if b.2 > 1 then (b.1, b.2 - 1) :: acc else acc) []

/-- The refill pool of `GameState::UpdateBanks` (state.cpp lines 5482-5521):
the walkable-bank tile list (post-`TIMESAVE` the restricted one) minus the
tiles already holding a surviving bank, kept in order. -/
def bankOptions (env : MapData) (s : GameState)
    (newBanks : List (Coord × Nat)) : List Coord :=
  let pool := if s.ForkInEffect Fork.TIMESAVE then env.walkableTilesTsBanks
              else env.walkableTiles
  pool.filter (fun c => (lookupC c newBanks).isNone)

/-- The refill loop of `GameState::UpdateBanks` (state.cpp lines 5494-5508
and 5522-5536): `count` times, sample an index into the ordered options
list and a fresh life in `[DYNBANKS_MIN_LIFE, DYNBANKS_MAX_LIFE]`, insert
the chosen tile and remove it from the options by shift (the source
explicitly keeps the vector ordered).  The source asserts the pool never
runs dry; on an empty pool the loop stops. -/
def refillBanks (options : List Coord) (banks : List (Coord × Nat))
    (rng : RandomGenerator) : Nat → List (Coord × Nat) × RandomGenerator
  | 0 => (banks, rng)
  | Nat.succ count =>
      if options = [] then (banks, rng)
      else
        let picked := rng.GetIntRnd options.length
        let ind := picked.1
        let rng1 := picked.2
        let lifer := rng1.GetIntRndRange DYNBANKS_MIN_LIFE DYNBANKS_MAX_LIFE
        let c := options.getD ind ⟨0, 0⟩
        refillBanks (options.eraseIdx ind) (banks ++ [(c, lifer.1.toNat)])
          lifer.2 count

/-- `GameState::UpdateBanks` (state.cpp lines 5441-5541): a no-op before
`FORK_LIFESTEAL`; otherwise decrement/drop existing banks and refill to
`DYNBANKS_NUM_BANKS` from the walkable-bank pool. -/
def GameState.UpdateBanks (s : GameState) (env : MapData)
    (rng : RandomGenerator) : GameState × RandomGenerator :=
  if ¬ s.ForkInEffect Fork.LIFESTEAL then (s, rng)
  else
    let newBanks := survivingBanks s
    let options := bankOptions env s newBanks
    let refilled := refillBanks options newBanks rng
      (DYNBANKS_NUM_BANKS - newBanks.length)
    ({ s with banks := refilled.1 }, refilled.2)

/-- `STATE_VERSION` (state.cpp line 47). -/
def STATE_VERSION : Int := 2020600

/-- `MIN_GAMEROUND_DURATION` (state.cpp line 600). -/
def MIN_GAMEROUND_DURATION : Int := 2000

/-- The treasure-drop pass of `PerformStep` (state.cpp lines 5801-5814):
`nCrownBonus = CROWN_BONUS * treasure / TOTAL_HARVEST`; for each harvest
area, one tile is sampled from its table and
`HarvestPortions[i] * treasure / TOTAL_HARVEST` added to its loot.  Returns
the updated state, `nTotalTreasure`, `nCrownBonus` and the generator. -/
def dropTreasureStep (totalHarvest : Nat) (treasure : Int)
    (acc : GameState × Int × RandomGenerator) (area : List Coord × Nat) :
    GameState × Int × RandomGenerator :=
  let picked := acc.2.2.GetIntRnd area.1.length
  let harvest := area.1.getD picked.1 ⟨0, 0⟩
  let nTreasure := (area.2 : Int) * treasure / (totalHarvest : Int)
  (acc.1.AddLoot harvest nTreasure, acc.2.1 + nTreasure, picked.2)

/-- The treasure-drop pass proper: compute the crown bonus, then fold the
per-area step; returns the updated state, `nTotalTreasure`, `nCrownBonus`
and the generator. -/
def dropTreasure (env : MapData) (s : GameState) (treasure : Int)
    (rng : RandomGenerator) : GameState × Int × Int × RandomGenerator :=
  let nCrownBonus := (env.crownBonusPortion : Int) * treasure / (env.totalHarvest : Int)
  let folded := env.harvestAreas.foldl
    (dropTreasureStep env.totalHarvest treasure) (s, 0, rng)
  (folded.1, folded.2.1, nCrownBonus, folded.2.2)

/-- The initialisation of `outState` in `PerformStep` (state.cpp lines
5562-5591): clone, bump height, carry the disaster height, set the new
hash, and clamp the DAO game-round interval to `MIN_GAMEROUND_DURATION`. -/
def initOut (inState : GameState) (hashIsNull : Bool) : GameState :=
  { inState with
      nHeight := inState.nHeight + 1,
      nDisasterHeight := inState.nDisasterHeight,
      hashIsNull := hashIsNull,
      dao_IntervalMonsterApocalypse :=
        if inState.dao_IntervalMonsterApocalypse < MIN_GAMEROUND_DURATION
        then MIN_GAMEROUND_DURATION
        else inState.dao_IntervalMonsterApocalypse }

/-- The locked-coin-delta pass of `PerformStep` (state.cpp lines 5607-5622):
non-spawn moves pay `newLocked - lockedCoins` into the game fund and update
the player's locked coins; spawn moves contribute their full `newLocked`.
Returns the updated state and `moneyIn`. -/
def creditLockedCoins (s : GameState) (moves : List Move) :
    GameState × Int :=
  moves.foldl (fun (acc : GameState × Int) m =>
    if ¬ m.isSpawn then
      match lookupA m.player acc.1.players with
      | none => acc
      | some pl =>
          let newFee := m.newLocked - pl.lockedCoins
          let pl1 := { pl with lockedCoins := m.newLocked }
          ({ acc.1 with gameFund := acc.1.gameFund + newFee,
                        players := setA m.player pl1 acc.1.players },
           acc.2 + newFee)
    else (acc.1, acc.2 + m.newLocked)) (s, 0)

/-- One character of the banking pass (state.cpp lines 5722-5751): skip
characters in stasis; a character with positive loot on a bank tile (or on
a player-spawn tile post-`TIMESAVE`) pays the 10% banking tax (0% once the
cached minimum version reaches 2020700), the rest is pushed as a bounty and
the carried loot is cleared. -/
def bankCharacter (env : MapData) (cacheMinVersion : Int) (timesave : Bool)
    (banks : List (Coord × Nat)) (pid : PlayerID) (addr : String) (i : Nat)
    (ch : CharacterState) (res : StepResult) : CharacterState × StepResult :=
  if ch.inStasis then (ch, res)
  else if (ch.loot.nAmount > 0 ∧ (lookupC ch.coord banks).isSome)
      ∨ (timesave ∧ ch.loot.nAmount > 0 ∧ env.isInsideMap ch.coord
          ∧ env.spawnMapPlayer ch.coord) then
    let nTax0 := ch.loot.nAmount / 10
    let nTax := if cacheMinVersion ≥ 2020700 then 0 else nTax0
    let newLoot := ch.loot.nAmount - nTax
    ({ ch with loot := ⟨0⟩ },
     { res with nTaxAmount := res.nTaxAmount + nTax,
                bounties := res.bounties ++ [⟨pid, i, newLoot, addr⟩] })
  else (ch, res)

/-- The banking pass of `PerformStep` (state.cpp lines 5721-5751), iterating
players and characters in order. -/
def bankingPass (env : MapData) (cacheMinVersion : Int) (s : GameState)
    (res : StepResult) : GameState × StepResult :=
  let timesave := s.ForkInEffect Fork.TIMESAVE
  let folded := s.players.foldl
    (fun (acc : List (PlayerID × PlayerState) × StepResult) pp =>
      let inner := pp.2.characters.foldl
        (fun (acc2 : List (Nat × CharacterState) × StepResult) ic =>
          let banked := bankCharacter env cacheMinVersion timesave s.banks
            pp.1 pp.2.address ic.1 ic.2 acc2.2
          (acc2.1 ++ [(ic.1, banked.1)], banked.2)) ([], acc.2)
      (acc.1 ++ [(pp.1, { pp.2 with characters := inner.1 })], inner.2))
    ([], res)
  ({ s with players := folded.1 }, folded.2)

/-- The sum of the bounty payouts of a step result; together with the tax it
forms `moneyOut` (state.cpp lines 5881-5884). -/
def bountyTotal (res : StepResult) : Int :=
  (res.bounties.map (fun b => b.lootAmount)).sum

/-- The passes of `PerformStep` that no verified claim depends on, taken as
parameters of the step skeleton (their bodies are thousands of lines of
`state.cpp`); the skeleton wires them in exactly the source's order.
`mid` covers `KillSpawnArea` through `UpdateCrownState` (its `Bool` result
is the `respawn_crown` flag), `postRandom1` covers the disaster check,
`DistributeDrawnLife`, spawns and address/message updates, `postRandom2`
(taking the crown-bonus amount) covers `DivideLootAmongPlayers`,
`CrownBonus` and the dynamic checkpoints, `postRandom3` (taking the
respawn-crown flag) covers the heart drop, `CollectHearts` and
`CollectCrown`. -/
structure Passes where
  pass0 : GameState → GameState
  pass1DAO : GameState → GameState
  mid : CharactersOnTiles → GameState → StepResult →
    GameState × StepResult × Bool
  postRandom1 : CharactersOnTiles → GameState → StepResult →
    RandomGenerator → GameState × StepResult × RandomGenerator
  postRandom2 : Int → GameState → StepResult → RandomGenerator →
    GameState × StepResult × RandomGenerator
  postRandom3 : Bool → GameState → StepResult → RandomGenerator →
    GameState × StepResult

/-- Modelled from the spec: `HUNTERMSG_CACHE_MAX` is declared in a header
outside `src/`; only `idx < HUNTERMSG_CACHE_MAX - 1` matters, so any bound
large enough for the inputs at hand is faithful. -/
def HUNTERMSG_CACHE_MAX : Nat := 64

/-- The tax-only prefix of `PerformStep` (state.cpp lines 5556-5756): move
validation, initialisation, cache pass, DAO pass, version gate, locked-coin
credits, the attack block, the middle passes and banking.  This is exactly
the computation whose result `PerformStep` returns when the new hash is
null.  Only the three pre-randomness pass parameters appear. -/
def performStepTaxOnly (pass0 pass1DAO : GameState → GameState)
    (mid : CharactersOnTiles → GameState → StepResult →
      GameState × StepResult × Bool)
    (env : MapData) (inState : GameState) (hashIsNull : Bool)
    (moves : List Move) : Option (GameState × StepResult) :=
  if moves.any (fun m => ¬ m.isValidFlag) then none
  else
    let out0 := initOut inState hashIsNull
    let out1 := pass0 out0
    let cacheMinVersion := out1.dao_MinVersion
    let out2 := pass1DAO out1
    if STATE_VERSION < out2.dao_MinVersion then none
    else
      let credited := creditLockedCoins out2 moves
      let out3 := credited.1
      let cot0 : CharactersOnTiles := ⟨[], false⟩
      let applied := cot0.ApplyAttacks out3 moves HUNTERMSG_CACHE_MAX 0 []
      let cot1 := applied.1
      let cot2 := if out3.ForkInEffect Fork.LIFESTEAL then
          cot1.DefendMutualAttacks out3
        else cot1
      let drawn := cot2.DrawLife env cacheMinVersion out3 ⟨[], [], 0⟩
      let midr := mid drawn.1 drawn.2.1 drawn.2.2
      let banked := bankingPass env cacheMinVersion midr.1 midr.2.1
      some banked

/-- The `moneyIn` accumulated by `PerformStep` for given inputs (the result
of the locked-coin-delta pass, state.cpp lines 5609-5622). -/
def performStepMoneyIn (pass0 pass1DAO : GameState → GameState)
    (inState : GameState) (hashIsNull : Bool) (moves : List Move) : Int :=
  (creditLockedCoins (pass1DAO (pass0 (initOut inState hashIsNull))) moves).2

/-- `PerformStep` (state.cpp lines 5556-5902) as a skeleton over the
abstract passes: `none` stands for `ok = false`.  The null-hash
short-circuit returns the tax-only prefix; otherwise the
randomness-dependent passes run (seeded from the non-null new hash, the
generator is the `rng` argument) and the final coin-conservation check
accepts or rejects the step. -/
def performStep (P : Passes) (env : MapData) (inState : GameState)
    (sd_newHashIsNull : Bool) (sd_vMoves : List Move)
    (sd_nTreasureAmount : Int) (rng : RandomGenerator) :
    Option (GameState × StepResult) :=
  if sd_vMoves.any (fun m => ¬ m.isValidFlag) then none
  else
    let out0 := initOut inState sd_newHashIsNull
    let out1 := P.pass0 out0
    let cacheMinVersion := out1.dao_MinVersion
    let out2 := P.pass1DAO out1
    if STATE_VERSION < out2.dao_MinVersion then none
    else
      let credited := creditLockedCoins out2 sd_vMoves
      let out3 := credited.1
      let moneyIn := credited.2
      let cot0 : CharactersOnTiles := ⟨[], false⟩
      let applied := cot0.ApplyAttacks out3 sd_vMoves HUNTERMSG_CACHE_MAX 0 []
      let cot1 := applied.1
      let cot2 := if out3.ForkInEffect Fork.LIFESTEAL then
          cot1.DefendMutualAttacks out3
        else cot1
      let drawn := cot2.DrawLife env cacheMinVersion out3 ⟨[], [], 0⟩
      let midr := P.mid drawn.1 drawn.2.1 drawn.2.2
      let respawnCrown := midr.2.2
      let banked := bankingPass env cacheMinVersion midr.1 midr.2.1
      if sd_newHashIsNull then some banked
      else
        let p1 := P.postRandom1 cot2 banked.1 banked.2 rng
        let treasured := dropTreasure env p1.1 sd_nTreasureAmount p1.2.2
        let p2 := P.postRandom2 treasured.2.2.1 treasured.1 p1.2.1
          treasured.2.2.2
        let ub := p2.1.UpdateBanks env p2.2.2
        let p3 := P.postRandom3 respawnCrown ub.1 p2.2.1 ub.2
        let outF := p3.1
        let resF := p3.2
        let moneyOut := resF.nTaxAmount + bountyTotal resF
        let moneyBefore := inState.GetCoinsOnMap + inState.gameFund
        let moneyAfter := outF.GetCoinsOnMap + outF.gameFund
        if moneyBefore + sd_nTreasureAmount + moneyIn = moneyAfter + moneyOut
        then some (outF, resF)
        else none

/-- Chain rules with no fork active at small heights (all activation heights
far away); used for pre-fork scenarios. -/
def rulesNoForks : ForkRules := ⟨fun _ => 1000000⟩

/-- Chain rules with every fork activating at height 0; used for post-fork
scenarios. -/
def rulesAllForks : ForkRules := ⟨fun _ => 0⟩

/-- The all-zero random stream (a concrete `RandomGenerator` for witnesses;
any stream is admissible since the hash seed is abstract). -/
def rngZero : RandomGenerator := ⟨fun _ => 0, 0⟩

/-- Modelled from the spec: a concrete, spec-conformant instance of the map
module for concrete runs.  Two harvest areas with portions 400 and 475 plus
`CROWN_BONUS = 25` summing to `TOTAL_HARVEST = 900` (the individual table
values from `game/map.h` are outside `src/`; the spec fixes only
`Σ portions + CROWN_BONUS = TOTAL_HARVEST`). -/
def mapData0 : MapData where
  pushCoordOutOfSpawnArea := fun c => c
  isInsideMap := fun _ => true
  spawnMapPlayer := fun _ => false
  walkableTiles := (List.range 80).map (fun i => ⟨(i : Int), 0⟩)
  walkableTilesTsBanks := (List.range 80).map (fun i => ⟨(i : Int), 1⟩)
  harvestAreas := [([⟨1, 1⟩], 400), ([⟨2, 2⟩], 475)]
  crownBonusPortion := 25
  totalHarvest := 900

/-- An empty pre-fork game state at height 0. -/
def state0 : GameState :=
  ⟨rulesNoForks, 0, -1, false, [], [], [], [], 0, 2020500, 0⟩

/-- The expected output state of `performStep` on `state0` with no moves:
height bumped, the DAO interval clamped, everything else unchanged. -/
def state0Out : GameState :=
  ⟨rulesNoForks, 1, -1, false, [], [], [], [], 0, 2020500, 2000⟩

/-- A pass bundle whose abstract components do nothing; used for concrete
runs of the step skeleton. -/
def idPasses : Passes where
  pass0 := fun s => s
  pass1DAO := fun s => s
  mid := fun _ s r => (s, r, false)
  postRandom1 := fun _ s r g => (s, r, g)
  postRandom2 := fun _ s r g => (s, r, g)
  postRandom3 := fun _ s r _ => (s, r)

/-- Victim player for the destruct scenario: color 0, general at (5,5)
carrying 7 coins. -/
def playerA : PlayerState :=
  ⟨0, 100, 100, -1, "addrA", [(0, ⟨⟨5, 5⟩, ⟨7⟩, false⟩)]⟩

/-- Attacker player for the destruct scenario: color 1, general at the same
tile (5,5). -/
def playerB : PlayerState :=
  ⟨1, 100, 100, -1, "addrB", [(0, ⟨⟨5, 5⟩, ⟨0⟩, false⟩)]⟩

/-- Pre-`LIFESTEAL` state with the victim and the attacker standing on the
same tile. -/
def stateAttack : GameState :=
  ⟨rulesNoForks, 100, -1, false, [("a", playerA), ("b", playerB)],
   [], [], [], 0, 2020500, 0⟩

/-- Attacker "b"'s move destructing its own character 0 (the claim expects
the same-tile, different-colour character of "a" to be attacked). -/
def moveDestruct : Move := ⟨"b", false, true, 100, [0]⟩

/-- An invalid move (fails `Move::IsValid`), for the early-return of
`PerformStep`. -/
def moveInvalid : Move := ⟨"x", false, false, 0, []⟩

/-- A state at the `LIFESTEAL` fork height (height 0 with all forks
activating at 0), for the dynamic-bank refill.  Its input banks mimic the
original spawn-ring banks, which are created with life 0
(`SetOriginalBanks`): the activation step discards them unconditionally. -/
def stateBankFork : GameState :=
  ⟨rulesAllForks, 0, -1, false, [], [], [],
   [(⟨0, 0⟩, 0), (⟨0, 1⟩, 0), (⟨0, 2⟩, 0)], 0, 2020500, 0⟩

/-- A pre-`LESSHEARTS` victim player for concrete kill-handling runs:
locked value 100, general at (3,3) carrying 50. -/
def playerVictim : PlayerState :=
  ⟨0, 100, 100, -1, "addrV", [(0, ⟨⟨3, 3⟩, ⟨50⟩, false⟩)]⟩

/-- A pre-`LESSHEARTS` state holding only `playerVictim`. -/
def stateVictim : GameState :=
  ⟨rulesNoForks, 10, -1, false, [("v", playerVictim)], [], [], [], 0, 2020500, 0⟩

/-- A state with one (non-poisoned) player and a heart, before
`FORK_LESSHEARTS`; input of the disaster witness. -/
def statePoisonIn : GameState :=
  ⟨rulesNoForks, 7, -1, false, [("p", ⟨0, 20, 20, -1, "addrP", []⟩)],
   [], [⟨4, 4⟩], [], 0, 2020500, 0⟩

/-- A state with a poisoned player about to die (life 1) and a non-poisoned
player; input of the `DecrementLife` witness. -/
def statePoisonTick : GameState :=
  ⟨rulesNoForks, 8, 2, false,
   [("q", ⟨1, 30, 30, 1, "addrQ", []⟩), ("r", ⟨2, 40, 40, -1, "addrR", []⟩)],
   [], [], [], 0, 2020500, 0⟩

/-- A post-`LIFESTEAL` victim player: locked value 50 coins, general at
(6,6). -/
def playerLS : PlayerState :=
  ⟨0, 5000000000, 5000000000, -1, "addrL", [(0, ⟨⟨6, 6⟩, ⟨0⟩, false⟩)]⟩

/-- A post-`LIFESTEAL` state (height 35000, so the damage ladder gives
20 coins) holding only `playerLS`. -/
def stateLS : GameState :=
  ⟨rulesAllForks, 35000, -1, false, [("v", playerLS)], [], [], [], 0, 2020600, 0⟩

/-- An attackable-character entry for the general of `playerLS` with one
attacker. -/
def attackerLS : AttackableCharacter :=
  ⟨⟨"v", 0⟩, 0, [⟨"b", 0⟩], 0⟩

/-! ## Theorems -/

/-- Looking up the key just written by `setA` yields the new value whenever
the key was present. -/
theorem lookupA_setA_self {β : Type} (k : String) (v : β)
    (l : List (String × β)) (w : β) (h : lookupA k l = some w) :
    lookupA k (setA k v l) = some v := by
  induction l with
  | nil => simp [lookupA] at h
  | cons p rest ih =>
      obtain ⟨k0, v0⟩ := p
      simp only [setA, List.map_cons]
      simp only [lookupA] at h
      by_cases hk : k0 = k
      · rw [if_pos hk]
        simp [lookupA]
      · rw [if_neg hk]
        rw [if_neg hk] at h
        simp only [lookupA]
        rw [if_neg hk]
        exact ih h

/-- A key other than the one written by `setA` reads unchanged. -/
theorem lookupA_setA_other {β : Type} (k k' : String) (v : β)
    (l : List (String × β)) (h : k' ≠ k) :
    lookupA k' (setA k v l) = lookupA k' l := by
  induction l with
  | nil => simp [setA, lookupA]
  | cons p rest ih =>
      obtain ⟨k0, v0⟩ := p
      simp only [setA, List.map_cons]
      by_cases hk : k0 = k
      · rw [if_pos hk]
        simp only [lookupA]
        rw [if_neg (Ne.symm h), if_neg (hk ▸ Ne.symm h)]
        exact ih
      · rw [if_neg hk]
        simp only [lookupA]
        exact if_congr Iff.rfl rfl ih

/-- The key erased by `eraseN` can no longer be looked up. -/
theorem lookupN_eraseN_self {β : Type} (k : Nat) (l : List (Nat × β)) :
    lookupN k (eraseN k l) = none := by
  induction l with
  | nil => simp [eraseN, lookupN]
  | cons p rest ih =>
      obtain ⟨k0, v0⟩ := p
      by_cases hk : k0 = k
      · simp only [eraseN, List.filter_cons]
        rw [decide_eq_false (by simpa using hk)]
        simpa [eraseN] using ih
      · simp only [eraseN, List.filter_cons]
        rw [decide_eq_true (by simpa using hk)]
        simp only [lookupN]
        rw [if_neg hk]
        simpa [eraseN] using ih

/-- `GetIntRndRange lo hi` lies in `[lo, hi]` whenever `lo ≤ hi`. -/
theorem getIntRndRange_bounds (rng : RandomGenerator) (lo hi : Int)
    (h : lo ≤ hi) :
    lo ≤ (rng.GetIntRndRange lo hi).1 ∧ (rng.GetIntRndRange lo hi).1 ≤ hi := by
  unfold RandomGenerator.GetIntRndRange
  have hpos : (0 : Int) < hi - lo + 1 := by omega
  have htn : ((hi - lo + 1).toNat : Int) = hi - lo + 1 := Int.toNat_of_nonneg (by omega)
  have hmod : rng.stream rng.idx % (hi - lo + 1).toNat < (hi - lo + 1).toNat := by
    refine Nat.mod_lt _ ?_
    omega
  constructor
  · simp only
    omega
  · simp only
    omega

/-- C7: `CollectLoot` preserves the carried total — carried before plus the
new loot equals carried after plus the returned remainder —, the remainder
is never negative, a cap of `-1` collects everything, and with a real cap
the character either ends at or below the cap or collected nothing. -/
theorem CollectLoot_conserves (ch : CharacterState) (newLoot : LootInfo)
    (nHeight : Int) (carryCap : Int) (hnew : 0 ≤ newLoot.nAmount) :
    ch.loot.nAmount + newLoot.nAmount
        = (ch.CollectLoot newLoot nHeight carryCap).1.loot.nAmount
          + (ch.CollectLoot newLoot nHeight carryCap).2
    ∧ 0 ≤ (ch.CollectLoot newLoot nHeight carryCap).2
    ∧ (carryCap = -1 → (ch.CollectLoot newLoot nHeight carryCap).2 = 0)
    ∧ (carryCap ≠ -1 →
        (ch.CollectLoot newLoot nHeight carryCap).1.loot.nAmount ≤ carryCap
        ∨ (ch.CollectLoot newLoot nHeight carryCap).1.loot.nAmount
            = ch.loot.nAmount) := by
  unfold CharacterState.CollectLoot
  dsimp only
  split_ifs <;> simp_all <;> omega

/-- Witness for `CollectLoot_conserves`: a character carrying 10 with cap 12
collects 2 of 5 new coins and returns remainder 3. -/
theorem CollectLoot_conserves_witness :
    (⟨⟨0, 0⟩, ⟨10⟩, false⟩ : CharacterState).loot.nAmount + (⟨5⟩ : LootInfo).nAmount
        = ((⟨⟨0, 0⟩, ⟨10⟩, false⟩ : CharacterState).CollectLoot ⟨5⟩ 1 12).1.loot.nAmount
          + ((⟨⟨0, 0⟩, ⟨10⟩, false⟩ : CharacterState).CollectLoot ⟨5⟩ 1 12).2
    ∧ 0 ≤ ((⟨⟨0, 0⟩, ⟨10⟩, false⟩ : CharacterState).CollectLoot ⟨5⟩ 1 12).2
    ∧ ((12 : Int) = -1 →
        ((⟨⟨0, 0⟩, ⟨10⟩, false⟩ : CharacterState).CollectLoot ⟨5⟩ 1 12).2 = 0)
    ∧ ((12 : Int) ≠ -1 →
        ((⟨⟨0, 0⟩, ⟨10⟩, false⟩ : CharacterState).CollectLoot ⟨5⟩ 1 12).1.loot.nAmount ≤ 12
        ∨ ((⟨⟨0, 0⟩, ⟨10⟩, false⟩ : CharacterState).CollectLoot ⟨5⟩ 1 12).1.loot.nAmount
            = (⟨⟨0, 0⟩, ⟨10⟩, false⟩ : CharacterState).loot.nAmount) :=
  CollectLoot_conserves ⟨⟨0, 0⟩, ⟨10⟩, false⟩ ⟨5⟩ 1 12 (by decide)

/-- C9 counterexample: for a merchant with no recorded sale
(`Merchant_last_sale = 0`) at height 20000 the source returns the full base
price (50 for the buffcoat merchant), not the ladder price 10% of base that
the claim's formula on `h - last_sale = 20000 > 10000` gives. -/
theorem merchantOffer_counterexample :
    Rpg_getMerchantOffer Merch.ARMOR_BUFFCOAT 20000 0 = 50
    ∧ specLadderPrice (merchBasePrice Merch.ARMOR_BUFFCOAT) 20000 0 = 5
    ∧ Rpg_getMerchantOffer Merch.ARMOR_BUFFCOAT 20000 0
        ≠ specLadderPrice (merchBasePrice Merch.ARMOR_BUFFCOAT) 20000 0 := by
  decide

/-- C9 (amended): when the height is positive and the merchant has a
recorded sale, the offer is exactly the base price scaled by the spec's
discount ladder on `h - last_sale`; otherwise it is the unscaled base
price.  A purchase whose loot does not cover the scaled price (in coin
units) leaves slot, loot and the merchant's account unchanged. -/
theorem merchantOffer_discount_ladder (m : Merch) (h lastSale : Int)
    (slot item : Nat) (mex : Bool) (loot sats : Int) :
    (0 < h → 0 < lastSale →
      Rpg_getMerchantOffer m h lastSale
        = specLadderPrice (merchBasePrice m) h lastSale)
    ∧ (h ≤ 0 ∨ lastSale ≤ 0 →
      Rpg_getMerchantOffer m h lastSale = merchBasePrice m)
    ∧ (loot < Rpg_getMerchantOffer m h lastSale * COIN →
      AI_BUY_FROM_MERCHANT slot item m mex h lastSale loot sats
        = (slot, loot, sats)) := by
  refine ⟨?_, ?_, ?_⟩
  · intro h1 h2
    unfold Rpg_getMerchantOffer specLadderPrice
    have : ¬ (h ≤ 0 ∨ lastSale ≤ 0) := by omega
    simp only [this, if_false]
  · intro h1
    unfold Rpg_getMerchantOffer
    simp only [h1, if_true]
  · intro h1
    unfold AI_BUY_FROM_MERCHANT
    rw [if_neg]
    intro hcon
    exact absurd hcon.2.2 (by omega)

/-- Witness for `merchantOffer_discount_ladder`: the linen merchant at
height 3000 with a sale at 500 offers 35·5/10 = 17, and a buyer with 10
base units cannot afford it, so nothing changes. -/
theorem merchantOffer_discount_ladder_witness :
    Rpg_getMerchantOffer Merch.ARMOR_LINEN 3000 500
      = specLadderPrice (merchBasePrice Merch.ARMOR_LINEN) 3000 500
    ∧ AI_BUY_FROM_MERCHANT 0 3 Merch.ARMOR_LINEN true 3000 500 10 0
      = (0, 10, 0) :=
  ⟨(merchantOffer_discount_ladder Merch.ARMOR_LINEN 3000 500 0 3 true 10 0).1
      (by decide) (by decide),
   (merchantOffer_discount_ladder Merch.ARMOR_LINEN 3000 500 0 3 true 10 0).2.2
      (by decide)⟩

/-- Unfolding step for `eraseC` on a cons cell. -/
theorem eraseC_cons (c : Coord) (p : Coord × LootInfo)
    (rest : List (Coord × LootInfo)) :
    eraseC c (p :: rest)
      = if p.1 = c then eraseC c rest else p :: eraseC c rest := by
  simp only [eraseC, List.filter_cons]
  by_cases h : p.1 = c
  · rw [decide_eq_false (by simp [h]), if_pos h]
    simp
  · rw [decide_eq_true (by simpa using h), if_neg h]
    simp

/-- Erasing a key that does not occur leaves the loot list unchanged. -/
theorem eraseC_not_mem (l : List (Coord × LootInfo)) (c : Coord)
    (h : ∀ p ∈ l, p.1 ≠ c) : eraseC c l = l := by
  induction l with
  | nil => rfl
  | cons p rest ih =>
      rw [eraseC_cons, if_neg (h p (List.mem_cons_self p rest)),
          ih (fun q hq => h q (List.mem_cons_of_mem p hq))]

/-- Overwriting a key that does not occur leaves the loot list unchanged. -/
theorem setC_not_mem (l : List (Coord × LootInfo)) (c : Coord) (v : LootInfo)
    (h : ∀ p ∈ l, p.1 ≠ c) : setC c v l = l := by
  induction l with
  | nil => rfl
  | cons p rest ih =>
      show (if p.1 = c then (c, v) else p) :: setC c v rest = p :: rest
      rw [if_neg (h p (List.mem_cons_self p rest)),
          ih (fun q hq => h q (List.mem_cons_of_mem p hq))]

/-- Erasing the unique entry of a key removes exactly its amount from the
loot sum. -/
theorem sum_eraseC (l : List (Coord × LootInfo)) (c : Coord) (li : LootInfo)
    (hnd : (l.map Prod.fst).Nodup) (hl : lookupC c l = some li) :
    ((eraseC c l).map (fun p => p.2.nAmount)).sum
      = (l.map (fun p => p.2.nAmount)).sum - li.nAmount := by
  induction l with
  | nil => simp [lookupC] at hl
  | cons p rest ih =>
      obtain ⟨k0, v0⟩ := p
      simp only [List.map_cons, List.nodup_cons] at hnd
      simp only [lookupC] at hl
      rw [eraseC_cons]
      by_cases hk : k0 = c
      · rw [if_pos hk] at hl
        obtain rfl : v0 = li := by injection hl
        simp only [if_pos hk]
        have hrest : ∀ q ∈ rest, q.1 ≠ c := by
          intro q hq hqc
          have hmem : q.1 ∈ rest.map Prod.fst := List.mem_map_of_mem Prod.fst hq
          rw [hqc, ← hk] at hmem
          exact hnd.1 hmem
        rw [eraseC_not_mem rest c hrest]
        simp only [List.map_cons, List.sum_cons]
        ring
      · rw [if_neg hk] at hl
        simp only [if_neg hk, List.map_cons, List.sum_cons]
        rw [ih hnd.2 hl]
        ring

/-- Overwriting the unique entry of a key replaces exactly its amount in the
loot sum. -/
theorem sum_setC (l : List (Coord × LootInfo)) (c : Coord) (li v : LootInfo)
    (hnd : (l.map Prod.fst).Nodup) (hl : lookupC c l = some li) :
    ((setC c v l).map (fun p => p.2.nAmount)).sum
      = (l.map (fun p => p.2.nAmount)).sum - li.nAmount + v.nAmount := by
  induction l with
  | nil => simp [lookupC] at hl
  | cons p rest ih =>
      obtain ⟨k0, v0⟩ := p
      simp only [List.map_cons, List.nodup_cons] at hnd
      simp only [lookupC] at hl
      show (((if k0 = c then (c, v) else (k0, v0)) :: setC c v rest).map
        (fun p => p.2.nAmount)).sum = _
      by_cases hk : k0 = c
      · rw [if_pos hk] at hl
        obtain rfl : v0 = li := by injection hl
        rw [if_pos hk]
        have hrest : ∀ q ∈ rest, q.1 ≠ c := by
          intro q hq hqc
          have hmem : q.1 ∈ rest.map Prod.fst := List.mem_map_of_mem Prod.fst hq
          rw [hqc, ← hk] at hmem
          exact hnd.1 hmem
        rw [setC_not_mem rest c v hrest]
        simp only [List.map_cons, List.sum_cons]
        ring
      · rw [if_neg hk] at hl
        rw [if_neg hk]
        simp only [List.map_cons, List.sum_cons]
        rw [ih hnd.2 hl]
        ring

/-- `AddLoot` changes the total loot lying on the map by exactly the added
amount (given unique tile keys) and touches nothing else. -/
theorem addLoot_coins (s : GameState) (c : Coord) (n : Int)
    (hnd : (s.loot.map Prod.fst).Nodup) :
    ((s.AddLoot c n).loot.map (fun p => p.2.nAmount)).sum
      = (s.loot.map (fun p => p.2.nAmount)).sum + n
    ∧ (s.AddLoot c n).gameFund = s.gameFund
    ∧ (s.AddLoot c n).players = s.players := by
  unfold GameState.AddLoot
  by_cases hz : n = 0
  · subst hz
    simp
  · rw [if_neg hz]
    cases hfound : lookupC c s.loot with
    | none => simp
    | some li =>
        dsimp only
        by_cases hsum : li.nAmount + n = 0
        · rw [if_pos hsum]
          refine ⟨?_, rfl, rfl⟩
          rw [sum_eraseC s.loot c li hnd hfound]
          omega
        · rw [if_neg hsum]
          refine ⟨?_, rfl, rfl⟩
          rw [sum_setC s.loot c li ⟨li.nAmount + n⟩ hnd hfound]
          simp
          ring

/-- C10: `HandleKilledLoot` charges the 4% death tax (`amount / 25`, where
the amount includes the locked value of a non-refunded general) to the step
result exactly when the kill cause pays death tax — never for
`KILLED_SPAWN` — and the cached minimum version is below 2020700; the
after-tax amount is what reaches the game fund (poisoned victims) or the
map loot (all other kills). -/
theorem handleKilledLoot_deathTax (s : GameState) (env : MapData)
    (ver : Int) (pId : PlayerID) (chInd : Nat) (info : KilledByInfo)
    (step : StepResult) (pc : PlayerState) (ch : CharacterState)
    (hp : lookupA pId s.players = some pc)
    (hc : lookupN chInd pc.characters = some ch) :
    (s.HandleKilledLoot env ver pId chInd info step).2.nTaxAmount
      = step.nTaxAmount
        + (if info.reason ≠ KillReason.SPAWN ∧ ver < 2020700
           then (ch.loot.nAmount
             + (if chInd = 0 ∧ ¬ (chInd = 0 ∧ info.CanRefund s pc)
                then pc.value else 0)) / 25
           else 0)
    ∧ (info.reason = KillReason.SPAWN →
        (s.HandleKilledLoot env ver pId chInd info step).2.nTaxAmount
          = step.nTaxAmount)
    ∧ (2020700 ≤ ver →
        (s.HandleKilledLoot env ver pId chInd info step).2.nTaxAmount
          = step.nTaxAmount)
    ∧ (info.DropCoins s pc = false →
        (s.HandleKilledLoot env ver pId chInd info step).1.gameFund
          = s.gameFund
            + ((ch.loot.nAmount
                + (if chInd = 0 ∧ ¬ (chInd = 0 ∧ info.CanRefund s pc)
                   then pc.value else 0))
               - (if info.reason ≠ KillReason.SPAWN ∧ ver < 2020700
                  then (ch.loot.nAmount
                    + (if chInd = 0 ∧ ¬ (chInd = 0 ∧ info.CanRefund s pc)
                       then pc.value else 0)) / 25
                  else 0)))
    ∧ (info.DropCoins s pc = true → (s.loot.map Prod.fst).Nodup →
        ((s.HandleKilledLoot env ver pId chInd info step).1.loot.map
            (fun p => p.2.nAmount)).sum
          = (s.loot.map (fun p => p.2.nAmount)).sum
            + ((ch.loot.nAmount
                + (if chInd = 0 ∧ ¬ (chInd = 0 ∧ info.CanRefund s pc)
                   then pc.value else 0))
               - (if info.reason ≠ KillReason.SPAWN ∧ ver < 2020700
                  then (ch.loot.nAmount
                    + (if chInd = 0 ∧ ¬ (chInd = 0 ∧ info.CanRefund s pc)
                       then pc.value else 0)) / 25
                  else 0))) := by
  unfold GameState.HandleKilledLoot
  rw [hp]
  dsimp only
  rw [hc]
  dsimp only
  have hdt : info.HasDeathTax = decide (info.reason ≠ KillReason.SPAWN) := rfl
  refine ⟨?_, ?_, ?_, ?_, ?_⟩
  · simp only [hdt, decide_eq_true_eq]
    split_ifs <;> simp_all
  · simp only [hdt, decide_eq_true_eq]
    split_ifs <;> simp_all
  · simp only [hdt, decide_eq_true_eq]
    split_ifs <;> simp_all
  · intro hdrop
    simp only [hdt, decide_eq_true_eq]
    rw [if_pos (by simp [hdrop])]
    split_ifs <;> simp_all
  · intro hdrop hnd
    simp only [hdt, decide_eq_true_eq]
    rw [if_neg (by simp [hdrop])]
    rw [(addLoot_coins s _ _ hnd).1]
    split_ifs <;> simp_all

/-- Witness for `handleKilledLoot_deathTax`: a destruct kill of the general
of `playerVictim` at cached version 2020600 pays tax (50 + 100) / 25 = 6. -/
theorem handleKilledLoot_deathTax_witness :
    (stateVictim.HandleKilledLoot mapData0 2020600 "v" 0
        ⟨KillReason.DESTRUCT, none⟩ ⟨[], [], 0⟩).2.nTaxAmount
      = (⟨[], [], 0⟩ : StepResult).nTaxAmount
        + (if (⟨KillReason.DESTRUCT, none⟩ : KilledByInfo).reason ≠ KillReason.SPAWN
              ∧ (2020600 : Int) < 2020700
           then ((⟨⟨3, 3⟩, ⟨50⟩, false⟩ : CharacterState).loot.nAmount
             + (if (0 : Nat) = 0 ∧ ¬ ((0 : Nat) = 0
                    ∧ (⟨KillReason.DESTRUCT, none⟩ : KilledByInfo).CanRefund
                        stateVictim playerVictim)
                then playerVictim.value else 0)) / 25
           else 0) :=
  (handleKilledLoot_deathTax stateVictim mapData0 2020600 "v" 0
    ⟨KillReason.DESTRUCT, none⟩ ⟨[], [], 0⟩ playerVictim
    ⟨⟨3, 3⟩, ⟨50⟩, false⟩ rfl rfl).1
/-- Every entry produced by the `ApplyDisaster` player fold is either from
the accumulator or has its remaining life freshly sampled in
`[POISON_MIN_LIFE, POISON_MAX_LIFE]`. -/
theorem applyDisaster_fold_mem (l : List (PlayerID × PlayerState)) :
    ∀ (acc : List (PlayerID × PlayerState) × RandomGenerator)
      (x : PlayerID × PlayerState), x ∈ (l.foldl applyDisasterStep acc).1 →
      x ∈ acc.1 ∨ (POISON_MIN_LIFE ≤ x.2.remainingLife
        ∧ x.2.remainingLife ≤ POISON_MAX_LIFE) := by
  induction l with
  | nil => exact fun acc x hx => Or.inl hx
  | cons p rest ih =>
      intro acc x hx
      rcases ih (applyDisasterStep acc p) x hx with h | h
      · unfold applyDisasterStep at h
        rcases List.mem_append.mp h with h1 | h2
        · exact Or.inl h1
        · right
          have hx2 : x = (p.1,
              { p.2 with remainingLife :=
                  (acc.2.GetIntRndRange POISON_MIN_LIFE POISON_MAX_LIFE).1 }) := by
            simpa using h2
        
          subst hx2
          exact getIntRndRange_bounds acc.2 POISON_MIN_LIFE POISON_MAX_LIFE
            (by decide)
      · exact Or.inr h

/-- The `DecrementLife` player fold maps each player's life down by one
(poisoned players only) and appends a `KILLED_POISON` kill exactly for the
players whose life was 1; bounties and tax are untouched. -/
theorem decrementLife_fold (l : List (PlayerID × PlayerState)) :
    ∀ acc : List (PlayerID × PlayerState) × StepResult,
    (l.foldl decrementLifeStep acc).1
        = acc.1 ++ l.map (fun p => (p.1,
            { p.2 with remainingLife := if p.2.remainingLife = -1
                then p.2.remainingLife else p.2.remainingLife - 1 }))
    ∧ (l.foldl decrementLifeStep acc).2.killed
        = acc.2.killed ++ (l.filter (fun p => p.2.remainingLife == 1)).map
            (fun p => (p.1, (⟨KillReason.POISON, none⟩ : KilledByInfo)))
    ∧ (l.foldl decrementLifeStep acc).2.bounties = acc.2.bounties
    ∧ (l.foldl decrementLifeStep acc).2.nTaxAmount = acc.2.nTaxAmount := by
  induction l with
  | nil => intro acc; simp
  | cons p rest ih =>
      intro acc
      obtain ⟨ih1, ih2, ih3, ih4⟩ := ih (decrementLifeStep acc p)
      obtain ⟨pid, pst⟩ := p
      obtain ⟨pc, pv, plc, prl, pad, pch⟩ := pst
      have hstep1 : (decrementLifeStep acc (pid, ⟨pc, pv, plc, prl, pad, pch⟩)).1
          = acc.1 ++ [(pid, ⟨pc, pv, plc,
              if prl = -1 then prl else prl - 1, pad, pch⟩)] := by
        unfold decrementLifeStep
        by_cases hml : prl = -1
        · rw [if_pos hml]
          simp only [if_pos hml]
        · rw [if_neg hml]
          dsimp only
          simp only [if_neg hml]
      have hstep2 : (decrementLifeStep acc (pid, ⟨pc, pv, plc, prl, pad, pch⟩)).2.killed
          = acc.2.killed ++ (if prl == 1
              then [(pid, (⟨KillReason.POISON, none⟩ : KilledByInfo))] else []) := by
        unfold decrementLifeStep
        by_cases hml : prl = -1
        · rw [if_pos hml]
          have : ¬ (prl == 1) := by
            simp only [beq_iff_eq]
            omega
          simp [this]
        · rw [if_neg hml]
          by_cases h1 : prl - 1 = 0
          · have hb : (prl == 1) = true := by
              simp only [beq_iff_eq]
              omega
            simp [h1, hb, StepResult.KillPlayer]
          · have hb : ¬ ((prl == 1) = true) := by
              simp only [beq_iff_eq]
              omega
            simp [h1, hb]
      have hstep3 : (decrementLifeStep acc (pid, ⟨pc, pv, plc, prl, pad, pch⟩)).2.bounties
          = acc.2.bounties := by
        unfold decrementLifeStep
        dsimp only
        split_ifs <;> simp [StepResult.KillPlayer]
      have hstep4 : (decrementLifeStep acc (pid, ⟨pc, pv, plc, prl, pad, pch⟩)).2.nTaxAmount
          = acc.2.nTaxAmount := by
        unfold decrementLifeStep
        dsimp only
        split_ifs <;> simp [StepResult.KillPlayer]
      refine ⟨?_, ?_, ?_, ?_⟩
      · rw [List.foldl_cons, ih1, hstep1]
        simp
      · rw [List.foldl_cons, ih2, hstep2]
        by_cases hb : (prl == 1) = true
        · simp [List.filter_cons, hb]
        · simp [List.filter_cons, hb]
      · rw [List.foldl_cons, ih3, hstep3]
      · rw [List.foldl_cons, ih4, hstep4]

/-- C8: `ApplyDisaster` gives every (non-poisoned, as all players are
asserted to be) player a fresh `remainingLife` uniform in `[1, 50]`, clears
the hearts exactly under `FORK_LESSHEARTS`, and resets the disaster height
to the current height; `DecrementLife` then lowers every poisoned player's
life by one, leaves non-poisoned players (`remainingLife = -1`) untouched,
and kills with cause `KILLED_POISON` exactly the players whose life reaches
zero. -/
theorem disaster_poison_lifecycle (s : GameState) (rng : RandomGenerator)
    (s2 : GameState) (res : StepResult)
    (_hall : ∀ p ∈ s.players, p.2.remainingLife = -1) :
    (∀ p ∈ (s.ApplyDisaster rng).1.players,
        POISON_MIN_LIFE ≤ p.2.remainingLife
          ∧ p.2.remainingLife ≤ POISON_MAX_LIFE)
    ∧ (s.ApplyDisaster rng).1.hearts
        = (if s.ForkInEffect Fork.LESSHEARTS then [] else s.hearts)
    ∧ (s.ApplyDisaster rng).1.nDisasterHeight = s.nHeight
    ∧ (s2.DecrementLife res).1.players
        = s2.players.map (fun p => (p.1,
            { p.2 with remainingLife := if p.2.remainingLife = -1
                then p.2.remainingLife else p.2.remainingLife - 1 }))
    ∧ (s2.DecrementLife res).2.killed
        = res.killed ++ (s2.players.filter (fun p => p.2.remainingLife == 1)).map
            (fun p => (p.1, (⟨KillReason.POISON, none⟩ : KilledByInfo))) := by
  refine ⟨?_, rfl, rfl, ?_, ?_⟩
  · intro p hp
    have := applyDisaster_fold_mem s.players ([], rng) p hp
    rcases this with h | h
    · cases h
    · exact h
  · simpa using (decrementLife_fold s2.players ([], res)).1
  · simpa using (decrementLife_fold s2.players ([], res)).2.1

/-- Witness for `disaster_poison_lifecycle` on the concrete poison states:
the all-zero stream gives every player life 1, hearts survive (no
`LESSHEARTS`), and the life-1 player "q" is the one killed. -/
theorem disaster_poison_lifecycle_witness :
    (∀ p ∈ (statePoisonIn.ApplyDisaster rngZero).1.players,
        POISON_MIN_LIFE ≤ p.2.remainingLife
          ∧ p.2.remainingLife ≤ POISON_MAX_LIFE)
    ∧ (statePoisonIn.ApplyDisaster rngZero).1.hearts
        = (if statePoisonIn.ForkInEffect Fork.LESSHEARTS then []
           else statePoisonIn.hearts)
    ∧ (statePoisonIn.ApplyDisaster rngZero).1.nDisasterHeight
        = statePoisonIn.nHeight
    ∧ (statePoisonTick.DecrementLife ⟨[], [], 0⟩).1.players
        = statePoisonTick.players.map (fun p => (p.1,
            { p.2 with remainingLife := if p.2.remainingLife = -1
                then p.2.remainingLife else p.2.remainingLife - 1 }))
    ∧ (statePoisonTick.DecrementLife ⟨[], [], 0⟩).2.killed
        = (⟨[], [], 0⟩ : StepResult).killed
          ++ (statePoisonTick.players.filter
                (fun p => p.2.remainingLife == 1)).map
              (fun p => (p.1, (⟨KillReason.POISON, none⟩ : KilledByInfo))) :=
  disaster_poison_lifecycle statePoisonIn rngZero statePoisonTick ⟨[], [], 0⟩
    (by decide)

/-- C2 counterexample: in this source `ApplyAttacks` never records victims.
Player "b" (colour 1) destructs its general on the same tile as the general
of "a" (colour 0) before `LIFESTEAL`, yet the tile index stays empty and
unbuilt, the subsequent `DrawLife` leaves the state untouched, and the
victim keeps its character and loot — the claim's expected
record-and-remove does not happen. -/
theorem applyAttacks_counterexample :
    playerA.color ≠ playerB.color
    ∧ (lookupN 0 playerA.characters).map (fun c => c.coord)
        = (lookupN 0 playerB.characters).map (fun c => c.coord)
    ∧ moveDestruct.destruct ≠ []
    ∧ stateAttack.ForkInEffect Fork.LIFESTEAL = false
    ∧ ((⟨[], false⟩ : CharactersOnTiles).ApplyAttacks stateAttack
        [moveDestruct] HUNTERMSG_CACHE_MAX 0 []).1.tiles = []
    ∧ ((⟨[], false⟩ : CharactersOnTiles).ApplyAttacks stateAttack
        [moveDestruct] HUNTERMSG_CACHE_MAX 0 []).1.built = false
    ∧ ((((⟨[], false⟩ : CharactersOnTiles).ApplyAttacks stateAttack
          [moveDestruct] HUNTERMSG_CACHE_MAX 0 []).1).DrawLife mapData0
          2020500 stateAttack ⟨[], [], 0⟩).2.1 = stateAttack
    ∧ lookupA "a" stateAttack.players = some playerA :=
  ⟨by decide, by decide, by decide, by decide, rfl, rfl, rfl, rfl⟩

/-- C2 (amended): `ApplyAttacks` returns the tile index unchanged (it only
updates the hunter-message destruct cache; the victim-marking block is
commented out in this source), and on the never-built index `DrawLife` is a
no-op, so destruct moves kill or damage nobody in this pass. -/
theorem applyAttacks_records_nothing (cot : CharactersOnTiles)
    (state state2 : GameState) (moves : List Move) (cmax idx : Nat)
    (msgs : List CharacterID) (env : MapData) (ver : Int)
    (res : StepResult) (hbuilt : cot.built = false) :
    (cot.ApplyAttacks state moves cmax idx msgs).1 = cot
    ∧ cot.DrawLife env ver state2 res = (cot, state2, res) := by
  constructor
  · rfl
  · unfold CharactersOnTiles.DrawLife
    rw [if_pos (by simp [hbuilt])]

/-- Witness for `applyAttacks_records_nothing` on the concrete destruct
scenario. -/
theorem applyAttacks_records_nothing_witness :
    ((⟨[], false⟩ : CharactersOnTiles).ApplyAttacks stateAttack [moveDestruct]
        HUNTERMSG_CACHE_MAX 0 []).1 = (⟨[], false⟩ : CharactersOnTiles)
    ∧ (⟨[], false⟩ : CharactersOnTiles).DrawLife mapData0 2020500 stateAttack
        ⟨[], [], 0⟩ = (⟨[], false⟩, stateAttack, ⟨[], [], 0⟩) :=
  applyAttacks_records_nothing ⟨[], false⟩ stateAttack stateAttack
    [moveDestruct] HUNTERMSG_CACHE_MAX 0 [] mapData0 2020500 ⟨[], [], 0⟩ rfl
/-- The positive damage ladder: `GetNameCoinAmount` is one of the four
ladder constants and is always positive. -/
theorem getNameCoinAmount_ladder (rules : ForkRules) (h : Int) :
    ((30000 < h → GetNameCoinAmount rules h = 20 * COIN)
    ∧ (20000 < h ∧ h ≤ 30000 → GetNameCoinAmount rules h = 30 * COIN)
    ∧ (10000 < h ∧ h ≤ 20000 → GetNameCoinAmount rules h = 50 * COIN)
    ∧ (h ≤ 10000 → GetNameCoinAmount rules h = 100 * COIN))
    ∧ 0 < GetNameCoinAmount rules h := by
  unfold GetNameCoinAmount COIN
  split_ifs <;> refine ⟨⟨?_, ?_, ?_, ?_⟩, ?_⟩ <;> omega

/-- The kill-reporting fold of `DrawLife` appends one `KILLED_DESTRUCT`
entry per attacker. -/
theorem killPlayer_fold (pid : PlayerID) (l : List CharacterID) :
    ∀ res : StepResult,
    (l.foldl (fun r at_ =>
        r.KillPlayer pid ⟨KillReason.DESTRUCT, some at_⟩) res).killed
      = res.killed ++ l.map (fun at_ =>
          (pid, (⟨KillReason.DESTRUCT, some at_⟩ : KilledByInfo)))
    ∧ (l.foldl (fun r at_ =>
        r.KillPlayer pid ⟨KillReason.DESTRUCT, some at_⟩) res).bounties
      = res.bounties
    ∧ (l.foldl (fun r at_ =>
        r.KillPlayer pid ⟨KillReason.DESTRUCT, some at_⟩) res).nTaxAmount
      = res.nTaxAmount := by
  induction l with
  | nil => intro res; simp
  | cons x rest ih =>
      intro res
      obtain ⟨ih1, ih2, ih3⟩ := ih (res.KillPlayer pid ⟨KillReason.DESTRUCT, some x⟩)
      refine ⟨?_, ?_, ?_⟩
      · rw [List.foldl_cons, ih1]
        simp [StepResult.KillPlayer]
      · rw [List.foldl_cons, ih2]
        rfl
      · rw [List.foldl_cons, ih3]
        rfl

/-- `AddLoot` never changes the player map. -/
theorem addLoot_preserves (s : GameState) (c : Coord) (n : Int) :
    (s.AddLoot c n).players = s.players := by
  unfold GameState.AddLoot
  by_cases hz : n = 0
  · rw [if_pos hz]
  · rw [if_neg hz]
    cases h : lookupC c s.loot with
    | none => rfl
    | some li =>
        dsimp only
        split_ifs <;> rfl

/-- `HandleKilledLoot` never changes the player map or the kill list. -/
theorem handleKilledLoot_players (s : GameState) (env : MapData) (ver : Int)
    (pId : PlayerID) (chInd : Nat) (info : KilledByInfo) (step : StepResult) :
    (s.HandleKilledLoot env ver pId chInd info step).1.players = s.players
    ∧ (s.HandleKilledLoot env ver pId chInd info step).2.killed = step.killed := by
  unfold GameState.HandleKilledLoot
  cases hp : lookupA pId s.players with
  | none => exact ⟨rfl, rfl⟩
  | some pc =>
      dsimp only
      cases hc : lookupN chInd pc.characters with
      | none => exact ⟨rfl, rfl⟩
      | some ch =>
          dsimp only
          constructor
          · by_cases hdrop : info.DropCoins s pc = true
            · rw [if_neg (by simp [hdrop])]
              exact addLoot_preserves s _ _
            · rw [if_pos (by simpa using hdrop)]
          · split_ifs <;> rfl
/-- C4: post-`LIFESTEAL`, `DrawLife` on an attacked character (non-empty
attacker set) draws `min(damage · numberOfAttackers, victimValue)` from the
victim's locked value, where `damage = GetNameCoinAmount(height)` follows
the 20/30/50/100-coin ladder; when the remainder falls below `damage` it is
drawn as well (the value goes to zero) and remembered in `drawnLife` for
redistribution; a victim with nonzero remaining value (necessarily at least
`damage`) survives with state and result otherwise untouched, and a victim
drained to zero is killed (one `KILLED_DESTRUCT` entry per attacker, its
character erased). -/
theorem drawLife_lifesteal (env : MapData) (ver : Int) (st : GameState)
    (res : StepResult) (c : Coord) (a : AttackableCharacter)
    (pid : PlayerID) (pl : PlayerState) (ch : CharacterState)
    (hLS : st.ForkInEffect Fork.LIFESTEAL = true)
    (hchid : a.chid = ⟨pid, 0⟩)
    (hatt : a.attackers ≠ [])
    (hdrawn : a.drawnLife = 0)
    (hpl : lookupA pid st.players = some pl)
    (hch : lookupN 0 pl.characters = some ch)
    (_hv : 0 ≤ pl.value) :
    ((30000 < st.nHeight → GetNameCoinAmount st.rules st.nHeight = 20 * COIN)
      ∧ (20000 < st.nHeight ∧ st.nHeight ≤ 30000 →
          GetNameCoinAmount st.rules st.nHeight = 30 * COIN)
      ∧ (10000 < st.nHeight ∧ st.nHeight ≤ 20000 →
          GetNameCoinAmount st.rules st.nHeight = 50 * COIN)
      ∧ (st.nHeight ≤ 10000 →
          GetNameCoinAmount st.rules st.nHeight = 100 * COIN))
    ∧ ((CharactersOnTiles.DrawLife ⟨[(c, a)], true⟩ env ver st res).1.tiles.map
        (fun t => t.2.drawnLife))
      = [if pl.value - min (GetNameCoinAmount st.rules st.nHeight * a.attackers.length) pl.value
            < GetNameCoinAmount st.rules st.nHeight
         then pl.value
         else min (GetNameCoinAmount st.rules st.nHeight * a.attackers.length) pl.value]
    ∧ ((lookupA pid (CharactersOnTiles.DrawLife ⟨[(c, a)], true⟩ env ver st res).2.1.players).map
        (fun q => q.value))
      = some (if pl.value - min (GetNameCoinAmount st.rules st.nHeight * a.attackers.length) pl.value
            < GetNameCoinAmount st.rules st.nHeight
         then 0
         else pl.value - min (GetNameCoinAmount st.rules st.nHeight * a.attackers.length) pl.value)
    ∧ (GetNameCoinAmount st.rules st.nHeight
          ≤ pl.value - min (GetNameCoinAmount st.rules st.nHeight * a.attackers.length) pl.value →
        (CharactersOnTiles.DrawLife ⟨[(c, a)], true⟩ env ver st res).2.1.players
            = setA pid { pl with value := pl.value - min (GetNameCoinAmount st.rules st.nHeight * a.attackers.length) pl.value } st.players
        ∧ (CharactersOnTiles.DrawLife ⟨[(c, a)], true⟩ env ver st res).2.2 = res)
    ∧ (pl.value - min (GetNameCoinAmount st.rules st.nHeight * a.attackers.length) pl.value
          < GetNameCoinAmount st.rules st.nHeight →
        (CharactersOnTiles.DrawLife ⟨[(c, a)], true⟩ env ver st res).2.2.killed
            = res.killed ++ a.attackers.map (fun at_ =>
                (pid, (⟨KillReason.DESTRUCT, some at_⟩ : KilledByInfo)))
        ∧ ((lookupA pid (CharactersOnTiles.DrawLife ⟨[(c, a)], true⟩ env ver st res).2.1.players).map
            (fun q => lookupN 0 q.characters)) = some none) := by
  obtain ⟨⟨hl1, hl2, hl3, hl4⟩, hdpos⟩ := getNameCoinAmount_ladder st.rules st.nHeight
  refine ⟨⟨hl1, hl2, hl3, hl4⟩, ?_⟩
  unfold CharactersOnTiles.DrawLife
  rw [if_neg (by simp)]
  dsimp only
  rw [List.foldl_cons, List.foldl_nil]
  unfold drawLifeTile
  dsimp only
  rw [if_neg hatt, hchid]
  dsimp only
  rw [hpl, hLS]
  dsimp only
  rw [if_pos rfl]
  set damage := GetNameCoinAmount st.rules st.nHeight with hdamage
  have hminEq : (if damage * (a.attackers.length : Int) > pl.value
      then pl.value else damage * a.attackers.length)
      = min (damage * a.attackers.length) pl.value := by
    omega
  rw [hminEq, hdrawn]
  set fullD := min (damage * (a.attackers.length : Int)) pl.value with hfullD
  set rem := pl.value - fullD with hrem
  by_cases hsub : rem < damage
  · -- sub-damage remainder: everything is drawn, the victim is killed
    rw [if_pos hsub]
    dsimp only
    rw [if_neg (fun hcc => hcc rfl)]
    unfold drawLifeKill
    dsimp only
    rw [if_pos rfl]
    have hv1 : lookupA pid (setA pid { pl with value := (0 : Int) } st.players)
        = some { pl with value := (0 : Int) } :=
      lookupA_setA_self pid _ st.players pl hpl
    rw [hv1]
    dsimp only
    rw [hch]
    dsimp only
    obtain ⟨hkp1, hkp2⟩ := handleKilledLoot_players
      { st with players := setA pid { pl with value := (0 : Int) } st.players }
      env ver pid 0
      ⟨KillReason.DESTRUCT, a.attackers.head?⟩
      (a.attackers.foldl (fun r at_ =>
        r.KillPlayer pid ⟨KillReason.DESTRUCT, some at_⟩) res)
    rw [hkp1, hv1]
    dsimp only
    refine ⟨?_, ?_, ?_, ?_⟩
    · simp only [List.nil_append, List.map_cons, List.map_nil]
      rw [if_pos hsub]
      congr 1
      omega
    · rw [lookupA_setA_self pid _ _ _ hv1]
      rw [if_pos hsub]
      simp
    · intro hcon
      omega
    · intro _
      constructor
      · rw [hkp2]
        exact (killPlayer_fold pid a.attackers res).1
      · rw [lookupA_setA_self pid _ _ _ hv1]
        simp [lookupN_eraseN_self]
  · -- survivor: value stays at rem ≥ damage, nothing else happens
    rw [if_neg hsub]
    dsimp only
    rw [if_pos (by omega)]
    refine ⟨?_, ?_, ?_, ?_⟩
    · simp only [List.nil_append, List.map_cons, List.map_nil, if_neg hsub]
      simp
    · rw [lookupA_setA_self pid _ st.players pl hpl]
      rw [if_neg hsub]
      simp
    · intro _
      exact ⟨rfl, rfl⟩
    · intro hcon
      exact absurd hcon hsub

/-- Witness for `drawLife_lifesteal`: one attacker draws 20 of the 50
locked coins of `playerLS`; 30 coins remain, which is at least the damage,
so the victim survives with nothing else changed. -/
theorem drawLife_lifesteal_witness :
    (CharactersOnTiles.DrawLife ⟨[(⟨6, 6⟩, attackerLS)], true⟩ mapData0
        2020600 stateLS ⟨[], [], 0⟩).2.1.players
      = setA "v" { playerLS with value := playerLS.value - min (GetNameCoinAmount stateLS.rules stateLS.nHeight * attackerLS.attackers.length) playerLS.value } stateLS.players
    ∧ (CharactersOnTiles.DrawLife ⟨[(⟨6, 6⟩, attackerLS)], true⟩ mapData0
        2020600 stateLS ⟨[], [], 0⟩).2.2 = (⟨[], [], 0⟩ : StepResult) :=
  (drawLife_lifesteal mapData0 2020600 stateLS ⟨[], [], 0⟩ ⟨6, 6⟩ attackerLS
    "v" playerLS ⟨⟨6, 6⟩, ⟨0⟩, false⟩ rfl rfl (by decide) rfl rfl rfl
    (by decide)).2.2.2.1 (by decide)

/-- The treasure fold accumulates exactly the sum of the per-area integer
shares `portion · T / TOTAL_HARVEST`. -/
theorem dropTreasure_fold_total (tot : Nat) (T : Int)
    (areas : List (List Coord × Nat)) :
    ∀ acc : GameState × Int × RandomGenerator,
    (areas.foldl (dropTreasureStep tot T) acc).2.1
      = acc.2.1 + (areas.map (fun a => (a.2 : Int) * T / (tot : Int))).sum := by
  induction areas with
  | nil => intro acc; simp
  | cons a rest ih =>
      intro acc
      rw [List.foldl_cons, ih (dropTreasureStep tot T acc a)]
      unfold dropTreasureStep
      simp only [List.map_cons, List.sum_cons]
      ring

/-- C6 (amended): whenever `TOTAL_HARVEST` divides the treasure amount `T`
(and the portions are spec-conformant: they sum with `CROWN_BONUS` to
`TOTAL_HARVEST`), the per-area drops plus the crown bonus add up to `T`
exactly. -/
theorem dropTreasure_conservation (env : MapData) (s : GameState) (T : Int)
    (rng : RandomGenerator)
    (hsum : (env.harvestAreas.map (fun a => (a.2 : Int))).sum
        + (env.crownBonusPortion : Int) = (env.totalHarvest : Int))
    (hpos : 0 < (env.totalHarvest : Int))
    (hdvd : (env.totalHarvest : Int) ∣ T) :
    (dropTreasure env s T rng).2.1 + (dropTreasure env s T rng).2.2.1 = T := by
  obtain ⟨k, rfl⟩ := hdvd
  unfold dropTreasure
  dsimp only
  rw [dropTreasure_fold_total]
  have hexact : ∀ p : Int, p * ((env.totalHarvest : Int) * k) / (env.totalHarvest : Int) = p * k := by
    intro p
    rw [show p * ((env.totalHarvest : Int) * k) = (env.totalHarvest : Int) * (p * k) by ring]
    exact Int.mul_ediv_cancel_left _ (by omega)
  have hmap : env.harvestAreas.map (fun a => (a.2 : Int) * ((env.totalHarvest : Int) * k) / (env.totalHarvest : Int))
      = env.harvestAreas.map (fun a => (a.2 : Int) * k) := by
    apply List.map_congr_left
    intro a _
    exact hexact _
  rw [hmap, hexact]
  have hsm : (env.harvestAreas.map (fun a => (a.2 : Int) * k)).sum
      = (env.harvestAreas.map (fun a => (a.2 : Int))).sum * k := by
    induction env.harvestAreas with
    | nil => simp
    | cons a rest ih =>
        simp only [List.map_cons, List.sum_cons, ih]
        ring
  rw [hsm]
  linear_combination k * hsum

/-- Witness for `dropTreasure_conservation`: with the concrete map data and
`T = 9000 = 10 · TOTAL_HARVEST`, the two area drops (4000 and 4750) plus
the crown bonus 250 give back 9000. -/
theorem dropTreasure_conservation_witness :
    (dropTreasure mapData0 state0 9000 rngZero).2.1
      + (dropTreasure mapData0 state0 9000 rngZero).2.2.1 = 9000 :=
  dropTreasure_conservation mapData0 state0 9000 rngZero (by decide)
    (by decide) (by decide)

/-- C6 counterexample: the equality claimed for every `T ≥ 0` fails at
`T = 1` — all integer shares truncate to zero although the portions are
spec-conformant — so the source's assert would fire there. -/
theorem dropTreasure_counterexample :
    ((mapData0.harvestAreas.map (fun a => (a.2 : Int))).sum
        + (mapData0.crownBonusPortion : Int) = (mapData0.totalHarvest : Int))
    ∧ (0 : Int) ≤ 1
    ∧ (dropTreasure mapData0 state0 1 rngZero).2.1
        + (dropTreasure mapData0 state0 1 rngZero).2.2.1 ≠ 1 := by
  refine ⟨by decide, by decide, ?_⟩
  decide
/-- Each surviving bank comes from an input bank with life above 1, with
its life decremented, and there are no more surviving banks than input
banks. -/
theorem survivingBanks_spec (s : GameState) :
    (survivingBanks s).length ≤ s.banks.length
    ∧ ∀ b ∈ survivingBanks s, ∃ b0 ∈ s.banks, b.2 = b0.2 - 1 ∧ 1 < b0.2 := by
  unfold survivingBanks
  split_ifs with h1 h2
  · simp
  · have hconst : ∀ l : List (Coord × Nat),
        List.foldr (fun _ acc => acc) ([] : List (Coord × Nat)) l = [] := by
      intro l
      induction l with
      | nil => rfl
      | cons x xs ihc => simp only [List.foldr_cons]; exact ihc
    rw [hconst]
    simp
  · generalize s.banks = l
    induction l with
    | nil => simp
    | cons b0 rest ih =>
        rw [List.foldr_cons]
        by_cases h3 : b0.2 > 1
        · rw [if_pos h3]
          refine ⟨by simpa using Nat.succ_le_succ ih.1, ?_⟩
          intro b hb
          rcases List.mem_cons.mp hb with hb0 | hbr
          · exact ⟨b0, List.mem_cons_self b0 rest, ⟨by rw [hb0], h3⟩⟩
          · obtain ⟨b1, hb1, hb2⟩ := ih.2 b hbr
            exact ⟨b1, List.mem_cons_of_mem b0 hb1, hb2⟩
        · rw [if_neg h3]
          refine ⟨le_trans ih.1 (Nat.le_succ _), ?_⟩
          intro b hb
          obtain ⟨b1, hb1, hb2⟩ := ih.2 b hb
          exact ⟨b1, List.mem_cons_of_mem b0 hb1, hb2⟩

/-- The refill loop adds exactly `n` fresh banks (when the option pool is
large enough), and every output bank is either an input bank or fresh with
life sampled in `[DYNBANKS_MIN_LIFE, DYNBANKS_MAX_LIFE]`. -/
theorem refillBanks_spec (n : Nat) :
    ∀ (options : List Coord) (banks : List (Coord × Nat))
      (rng : RandomGenerator), n ≤ options.length →
    (refillBanks options banks rng n).1.length = banks.length + n
    ∧ ∀ b ∈ (refillBanks options banks rng n).1,
        b ∈ banks ∨ (25 ≤ b.2 ∧ b.2 ≤ 100) := by
  induction n with
  | zero => intro options banks rng _; exact ⟨rfl, fun b hb => Or.inl hb⟩
  | succ n ih =>
      intro options banks rng hlen
      have hne : options ≠ [] := by
        intro hnil
        rw [hnil] at hlen
        simp at hlen
      unfold refillBanks
      rw [if_neg hne]
      dsimp only [RandomGenerator.GetIntRnd, RandomGenerator.GetIntRndRange]
      have hpos : 0 < options.length := List.length_pos.mpr hne
      have hmod : rng.stream rng.idx % options.length < options.length :=
        Nat.mod_lt _ hpos
      have hlen2 : n ≤ (options.eraseIdx (rng.stream rng.idx % options.length)).length := by
        have := List.length_eraseIdx_add_one hmod
        omega
      have hr : rng.stream (rng.idx + 1) % (DYNBANKS_MAX_LIFE - DYNBANKS_MIN_LIFE + 1).toNat
          < (DYNBANKS_MAX_LIFE - DYNBANKS_MIN_LIFE + 1).toNat := by
        refine Nat.mod_lt _ ?_
        decide
      obtain ⟨ih1, ih2⟩ := ih
        (options.eraseIdx (rng.stream rng.idx % options.length))
        (banks ++ [(options.getD (rng.stream rng.idx % options.length) ⟨0, 0⟩,
          (DYNBANKS_MIN_LIFE + ((rng.stream (rng.idx + 1)
            % (DYNBANKS_MAX_LIFE - DYNBANKS_MIN_LIFE + 1).toNat : Nat) : Int)).toNat)])
        ⟨rng.stream, rng.idx + 1 + 1⟩ hlen2
      constructor
      · rw [ih1]
        simp only [List.length_append, List.length_cons, List.length_nil]
        omega
      · intro b hb
        rcases ih2 b hb with hbm | hfresh
        · rcases List.mem_append.mp hbm with hb1 | hb2
          · exact Or.inl hb1
          · right
            have hbeq : b = (options.getD (rng.stream rng.idx % options.length) ⟨0, 0⟩,
                (DYNBANKS_MIN_LIFE + ((rng.stream (rng.idx + 1)
                  % (DYNBANKS_MAX_LIFE - DYNBANKS_MIN_LIFE + 1).toNat : Nat) : Int)).toNat) := by
              simpa using hb2
            rw [hbeq]
            dsimp only [DYNBANKS_MIN_LIFE, DYNBANKS_MAX_LIFE] at hr ⊢
            constructor
            · omega
            · omega
        · exact Or.inr hfresh

/-- C5: after `UpdateBanks` with `FORK_LIFESTEAL` in effect (given a
wellformed input: 75 banks with lives in `[1, 100]` except at the fork
height itself, where the life-0 original spawn-ring banks are discarded
unconditionally, and an option pool large enough, as the source asserts), the
bank map holds exactly `DYNBANKS_NUM_BANKS = 75` entries and every bank's
remaining life lies in `[1, 100]`: surviving banks were decremented from
`[2, 100]`, fresh banks are sampled (by ordered shift-removal from the
pool) with life in `[25, 100]`. -/
theorem updateBanks_cardinality (s : GameState) (env : MapData)
    (rng : RandomGenerator)
    (hLS : s.ForkInEffect Fork.LIFESTEAL = true)
    (hsize : s.rules.IsForkHeight Fork.LIFESTEAL s.nHeight = false →
        s.banks.length = DYNBANKS_NUM_BANKS)
    (hlife : s.rules.IsForkHeight Fork.LIFESTEAL s.nHeight = false →
        ∀ b ∈ s.banks, 1 ≤ b.2 ∧ b.2 ≤ 100)
    (hpool : DYNBANKS_NUM_BANKS - (survivingBanks s).length
        ≤ (bankOptions env s (survivingBanks s)).length) :
    (s.UpdateBanks env rng).1.banks.length = DYNBANKS_NUM_BANKS
    ∧ ∀ b ∈ (s.UpdateBanks env rng).1.banks, 1 ≤ b.2 ∧ b.2 ≤ 100 := by
  obtain ⟨hs1, hs2⟩ := survivingBanks_spec s
  have hsurv_le : (survivingBanks s).length ≤ DYNBANKS_NUM_BANKS := by
    by_cases hf : s.rules.IsForkHeight Fork.LIFESTEAL s.nHeight = true
    · unfold survivingBanks
      rw [if_pos hf]
      simp [DYNBANKS_NUM_BANKS]
    · have := hsize (by simpa using hf)
      omega
  obtain ⟨hr1, hr2⟩ := refillBanks_spec
    (DYNBANKS_NUM_BANKS - (survivingBanks s).length)
    (bankOptions env s (survivingBanks s)) (survivingBanks s) rng hpool
  unfold GameState.UpdateBanks
  rw [if_neg (by simp [hLS])]
  dsimp only
  constructor
  · rw [hr1]
    omega
  · intro b hb
    rcases hr2 b hb with hmem | hfresh
    · by_cases hf : s.rules.IsForkHeight Fork.LIFESTEAL s.nHeight = true
      · exfalso
        unfold survivingBanks at hmem
        rw [if_pos hf] at hmem
        simp at hmem
      · obtain ⟨b0, hb0, hbe, hbgt⟩ := hs2 b hmem
        have := hlife (by simpa using hf) b0 hb0
        omega
    · omega

/-- Witness for `updateBanks_cardinality`: at the `LIFESTEAL` fork height,
with life-0 original spawn-ring banks as input and the concrete 80-tile
bank pool, the activation step discards the old banks and the refill
produces exactly 75 banks with lives within bounds. -/
theorem updateBanks_cardinality_witness :
    (stateBankFork.UpdateBanks mapData0 rngZero).1.banks.length
        = DYNBANKS_NUM_BANKS
    ∧ ∀ b ∈ (stateBankFork.UpdateBanks mapData0 rngZero).1.banks,
        1 ≤ b.2 ∧ b.2 ≤ 100 :=
  updateBanks_cardinality stateBankFork mapData0 rngZero (by decide)
    (by decide) (by decide) (by decide)
/-- C1: every step that `performStep` accepts with a non-null new hash
satisfies coin conservation — coins on the map plus game fund before, plus
the treasure and the locked-coin deltas (`moneyIn`), equal coins on the map
plus game fund after, plus tax and bounty payouts (`moneyOut`).
Contrapositively, whenever the final values violate the equation, the step
is rejected (`ok = false`): the function returns `some` on this path only
through the conservation check. -/
theorem performStep_coin_conservation (P : Passes) (env : MapData)
    (inState : GameState) (moves : List Move) (T : Int)
    (rng : RandomGenerator) (out : GameState) (res : StepResult)
    (hrun : performStep P env inState false moves T rng = some (out, res)) :
    inState.GetCoinsOnMap + inState.gameFund + T
        + performStepMoneyIn P.pass0 P.pass1DAO inState false moves
      = out.GetCoinsOnMap + out.gameFund + (res.nTaxAmount + bountyTotal res) := by
  unfold performStep at hrun
  by_cases hval : moves.any (fun m => ¬ m.isValidFlag) = true
  · rw [if_pos hval] at hrun
    simp at hrun
  · rw [if_neg hval] at hrun
    dsimp only at hrun
    by_cases hver : STATE_VERSION
        < (P.pass1DAO (P.pass0 (initOut inState false))).dao_MinVersion
    · rw [if_pos hver] at hrun
      simp at hrun
    · rw [if_neg hver] at hrun
      rw [if_neg (by decide : ¬ (false = true))] at hrun
      unfold performStepMoneyIn
      split at hrun
      all_goals split at hrun
      all_goals first
        | (rename_i hcons
           simp only [Option.some.injEq, Prod.mk.injEq] at hrun
           obtain ⟨rfl, rfl⟩ := hrun
           exact hcons)
        | simp at hrun
/-- C3 (amended): with a null new hash, `performStep` returns exactly the
tax-only prefix — the computation through banking, which depends only on
the three pre-randomness passes, so the disaster check, life distribution,
spawns, address updates, treasure drop, loot division, crown bonus, bank
update, heart and crown passes and the conservation check are all skipped —
and it returns `ok = true` (a `some` result, with the tax fully computed)
whenever every move is valid and the version gate passes. -/
theorem performStep_nullHash_taxOnly (P : Passes) (env : MapData)
    (inState : GameState) (moves : List Move) (T : Int)
    (rng : RandomGenerator) :
    performStep P env inState true moves T rng
        = performStepTaxOnly P.pass0 P.pass1DAO P.mid env inState true moves
    ∧ ((∀ m ∈ moves, m.isValidFlag = true) →
       (P.pass1DAO (P.pass0 (initOut inState true))).dao_MinVersion
           ≤ STATE_VERSION →
       ∃ pr, performStep P env inState true moves T rng = some pr) := by
  constructor
  · unfold performStep performStepTaxOnly
    by_cases hval : (moves.any fun m => decide (¬ m.isValidFlag = true)) = true
    · rw [if_pos hval, if_pos hval]
    · rw [if_neg hval, if_neg hval]
      dsimp only
      by_cases hver : STATE_VERSION
          < (P.pass1DAO (P.pass0 (initOut inState true))).dao_MinVersion
      · rw [if_pos hver, if_pos hver]
      · rw [if_neg hver, if_neg hver]
        rw [if_pos rfl]
  · intro hmv hver2
    have hval : (moves.any fun m => decide (¬ m.isValidFlag = true)) = false := by
      rw [List.any_eq_false]
      intro m hm
      simp [hmv m hm]
    unfold performStep
    rw [if_neg (show ¬ ((moves.any fun m => decide (¬ m.isValidFlag = true)) = true)
          from by rw [hval]; exact Bool.false_ne_true),
        if_neg (by omega), if_pos rfl]
    exact ⟨_, rfl⟩

/-- Witness for `performStep_nullHash_taxOnly` on the empty-move input: the
null-hash run equals the tax-only prefix and is accepted. -/
theorem performStep_nullHash_taxOnly_witness :
    performStep idPasses mapData0 state0 true [] 0 rngZero
        = performStepTaxOnly idPasses.pass0 idPasses.pass1DAO idPasses.mid
            mapData0 state0 true []
    ∧ ∃ pr, performStep idPasses mapData0 state0 true [] 0 rngZero = some pr :=
  ⟨(performStep_nullHash_taxOnly idPasses mapData0 state0 [] 0 rngZero).1,
   (performStep_nullHash_taxOnly idPasses mapData0 state0 [] 0 rngZero).2
     (by simp) (by decide)⟩

/-- C3 counterexample: a null-hash step containing an invalid move returns
`ok = false`, not `ok = true` — the claim's unconditional "returns ok =
true" fails without the move-validity and version conditions. -/
theorem performStep_nullHash_counterexample :
    moveInvalid.isValidFlag = false
    ∧ performStep idPasses mapData0 state0 true [moveInvalid] 0 rngZero
        = none :=
  ⟨rfl, rfl⟩

/-- Witness for `performStep_coin_conservation`: the empty step on the
empty state is accepted and both sides of the conservation equation are 0. -/
theorem performStep_coin_conservation_witness :
    state0.GetCoinsOnMap + state0.gameFund + 0
        + performStepMoneyIn idPasses.pass0 idPasses.pass1DAO state0 false []
      = state0Out.GetCoinsOnMap + state0Out.gameFund
        + ((⟨[], [], 0⟩ : StepResult).nTaxAmount
            + bountyTotal ⟨[], [], 0⟩) :=
  performStep_coin_conservation idPasses mapData0 state0 [] 0 rngZero
    state0Out ⟨[], [], 0⟩ rfl
